import Mathlib

/-!
Verification of the spherical isotropic distribution-function model of
`src/galaxymodel_spherical.cpp` (namespace `galaxymodel`).

Shallow embedding conventions
=============================

Machine doubles are modelled as exact rationals (`ℚ`): the claims under
study concern control flow (which error is raised, which branch is taken,
how tabulated arrays are accumulated), not floating-point rounding.
`NaN` does not exist in `ℚ`; the C++ comparisons of the form `!(x >= 0)`
are translated to their rational complements (`x < 0`).  `+INFINITY` as an
argument of `cumulMass` is modelled via `WithTop ℚ`, and the possibly
`-INFINITY` value `Phi(0)` via `WithBot ℚ`.

Transcendental library primitives (`std::exp`, `std::log`, `std::sqrt`,
the Gauss-Legendre node/weight tables `math::GLPOINTS`/`math::GLWEIGHTS`,
`math::findRoot`, `math::integrateGL`) are external collaborators per the
spec (section 1 "OUT OF SCOPE").  They are modelled as explicit function /
list parameters of the embedded operations; the few facts the proofs need
about them (positivity of `exp`, nonnegativity of the GL weights,
`exp (log q) = q` for `q > 0`) appear as named hypotheses of the theorems.

The spline interpolators (`math::LogLogSpline`, `math::CubicSpline2d`) are
code of this repository that is not under `src/`; following the spec they
are modelled by the predicates `SplineSpec` / `Spline2DSpec` below
("Modelled from the spec" doc comments), and a model realizing a
constructed data set is related to it by `Realizes`.
-/

namespace GalaxyModel

/-- Lower threshold `MIN_VALUE_ROUNDOFF = 0.9999999999999e-100` from
`galaxymodel_spherical.cpp` line 32, as an exact rational. -/
def MINV : ℚ :=
  9999999999999 / 100000000000000000000000000000000000000000000000000000000000000000000000000000000000000000000000000000000000000000

/-- A distribution function f(h): `math::IFunction` with `value(h)` and,
when `numDerivs() >= 1`, an analytic derivative `df/dh`.  `deriv = none`
models a DF object reporting `numDerivs() = 0`. -/
structure DF where
  value : ℚ → ℚ
  deriv : Option (ℚ → ℚ)

/-- The external `potential::PhaseVolume` collaborator: `E(h)` with
optional outputs `g = dh/dE` and `dg/dh`, plus `Phi0 = E(0)` (which the
code obtains as `phasevol.E(0)` and which may be `-INFINITY`, hence
`WithBot ℚ`), and the forward map `operator()(E) = h(E)`. -/
structure PhaseVolume where
  E : ℚ → ℚ
  g : ℚ → ℚ
  dgdh : ℚ → ℚ
  Phi0 : WithBot ℚ
  hOf : ℚ → ℚ

/-- Error taxonomy of section 7 of the spec.  The constructor of
`SphericalIsotropicModel` raises them as `std::runtime_error` with these
messages:
* `invalidDF`: "f(h)=..." (negative DF value, lines 254-256 and 345-347);
* `divergentMass`: "f(h) rises too rapidly as h-->0" (line 280) or
  "f(h) falls off too slowly as h-->infinity" (line 287);
* `inconsistentPotentialDF`: "weird behaviour of potential" (line 305),
  "weird behaviour of E(h) at infinity" (line 315), or "weird behaviour
  of f(h) at origin" (line 318);
* `zeroOrNegativeMass`: "f(h) is nowhere positive" (line 388);
* `invalidInterpolators`: "cannot construct valid interpolators" (line 406). -/
inductive ModelError where
  | invalidDF
  | divergentMass
  | inconsistentPotentialDF
  | zeroOrNegativeMass
  | invalidInterpolators
  deriving DecidableEq, Repr

/-- A 1D spline object as consumed by the model: evaluation plus first and
second derivative (the `evalDeriv` interface of `math::LogLogSpline`). -/
structure Spline1D where
  eval : ℚ → ℚ
  der : ℚ → ℚ
  der2 : ℚ → ℚ

/-- A 2D spline surface with its domain bounds (`math::CubicSpline2d`
interface: `value(x,y)`, `xmin()`, `xmax()`, `ymin()`, `ymax()`). -/
structure Spline2D where
  eval : ℚ → ℚ → ℚ
  xmin : ℚ
  xmax : ℚ
  ymin : ℚ
  ymax : ℚ

/-- All tabulated data produced by the body of
`SphericalIsotropicModel::SphericalIsotropicModel` (lines 232-431) before
the four `math::LogLogSpline` objects are built from it. -/
structure ModelData where
  gridH : List ℚ
  gridF : List ℚ
  gridG : List ℚ
  gridE : List ℚ
  gridFint : List ℚ
  gridFGint : List ℚ
  gridFHint : List ℚ
  gridFEint : List ℚ
  gridFder : List ℚ
  gridFGder : List ℚ
  gridFHder : List ℚ
  gridFEder : List ℚ
  totalMass : ℚ
  htransition : ℚ
  deriving DecidableEq, Repr

/-- The queryable `SphericalIsotropicModel` object: the phase volume, the
four interpolating splines `intf`, `intfg`, `intfh`, `intfE`, and the two
scalars stored by the constructor. -/
structure SphericalIsotropicModel where
  phasevol : PhaseVolume
  intf : Spline1D
  intfg : Spline1D
  intfh : Spline1D
  intfE : Spline1D
  totalMass : ℚ
  htransition : ℚ

/-! ### List helpers mirroring the accumulation loops of the constructor -/

/-- Running sums: entry `i` is the sum of the first `i+1` entries of `l`.
Mirrors the in-place loop `gridFGint[i] += gridFGint[i-1]` (lines 377-381)
applied to per-segment contributions. -/
def prefixSums (l : List ℚ) : List ℚ :=
  (List.range l.length).map (fun i => ((l.take (i + 1)).sum))

/-- Add `c` to the last entry of `l` (the boundary-tail corrections of
lines 382-385, e.g. `gridFGint.back() -= ...`). -/
def addLast (l : List ℚ) (c : ℚ) : List ℚ :=
  l.dropLast ++ [l.getLast?.getD 0 + c]

/-- Backward accumulation used for `gridFint` (lines 360-366): entry `i`
is the sum of the segment contributions with index `≥ i` plus the
analytic outermost tail. -/
def suffixSums (l : List ℚ) (tail : ℚ) : List ℚ :=
  (List.range (l.length + 1)).map (fun i => (l.drop i).sum + tail)

/-! ### Constructor, step by step -/

/-- Asymptotic power-law slopes of f(h) at both grid ends (step 3a, lines
265-276): from the analytic derivative when the DF provides one
(`slope = df/dh / f * h`), otherwise by a two-point finite difference of
`log f` against `log h`; `logQ` models `std::log`. -/
def rawFslopes (logQ : ℚ → ℚ) (df : DF) (gridLogH gridH gridF : List ℚ) : ℚ × ℚ :=
  let n := gridH.length
  match df.deriv with
  | some der =>
      (der (gridH.getD 0 0) / gridF.getD 0 0 * gridH.getD 0 0,
       der (gridH.getD (n - 1) 0) / gridF.getD (n - 1) 0 * gridH.getD (n - 1) 0)
  | none =>
      (logQ (gridF.getD 1 0 / gridF.getD 0 0) / (gridLogH.getD 1 0 - gridLogH.getD 0 0),
       logQ (gridF.getD (n - 1) 0 / gridF.getD (n - 2) 0) /
         (gridLogH.getD (n - 1) 0 - gridLogH.getD (n - 2) 0))

/-- Lines 277-283: snap a tiny inner boundary DF value (and its slope) to
zero, else reject an inner slope `≤ -1` ("f(h) rises too rapidly as
h-->0", i.e. `DivergentMass`).  The C++ test `!(innerFslope > -1)` is
`innerFslope ≤ -1` on rationals. -/
def snapInner (f0 iSl : ℚ) : Except ModelError (ℚ × ℚ) :=
  if f0 ≤ MINV then .ok (0, 0)
  else if iSl ≤ -1 then .error .divergentMass
  else .ok (f0, iSl)

/-- Lines 284-290: same at the outer end; reject an outer slope `≥ -1`
("f(h) falls off too slowly as h-->infinity", i.e. `DivergentMass`).
The C++ test `!(outerFslope < -1)` is `-1 ≤ outerFslope` on rationals. -/
def snapOuter (fN oSl : ℚ) : Except ModelError (ℚ × ℚ) :=
  if fN ≤ MINV then .ok (0, 0)
  else if -1 ≤ oSl then .error .divergentMass
  else .ok (fN, oSl)

/-- Gauss-Legendre points of one segment `[x0, x1]` in log h: the node
`logh = x0 + dlogh * glnode[k]` paired with the weight
`glweight[k] * dlogh` (lines 338-342).  `tab` is the zipped external
node/weight table. -/
def glPts (x0 x1 : ℚ) (tab : List (ℚ × ℚ)) : List (ℚ × ℚ) :=
  tab.map (fun p => (x0 + (x1 - x0) * p.1, p.2 * (x1 - x0)))

/-- Per-segment quadrature sum feeding `gridFint` (line 353):
`Σ f(h) h w / g(h)` with `h = exp logh`. -/
def segValF (expQ : ℚ → ℚ) (df : DF) (pv : PhaseVolume) (pts : List (ℚ × ℚ)) : ℚ :=
  (pts.map (fun p => df.value (expQ p.1) * expQ p.1 * p.2 / pv.g (expQ p.1))).sum

/-- Per-segment quadrature sum feeding `gridFGint` (line 354): `Σ f(h) h w`. -/
def segValFG (expQ : ℚ → ℚ) (df : DF) (pts : List (ℚ × ℚ)) : ℚ :=
  (pts.map (fun p => df.value (expQ p.1) * expQ p.1 * p.2)).sum

/-- Per-segment quadrature sum feeding `gridFHint` (line 355):
`Σ f(h) h w / g(h) * h`. -/
def segValFH (expQ : ℚ → ℚ) (df : DF) (pv : PhaseVolume) (pts : List (ℚ × ℚ)) : ℚ :=
  (pts.map (fun p => df.value (expQ p.1) * expQ p.1 * p.2 / pv.g (expQ p.1) * expQ p.1)).sum

/-- Per-segment quadrature sum feeding `gridFEint` (line 356, note the
`-=`): `Σ -(f(h) h w E(h))`. -/
def segValFE (expQ : ℚ → ℚ) (df : DF) (pv : PhaseVolume) (pts : List (ℚ × ℚ)) : ℚ :=
  (pts.map (fun p => -(df.value (expQ p.1) * expQ p.1 * p.2 * pv.E (expQ p.1)))).sum

/-- The transition-point loop of lines 392-394:
`htransition = gridH[0]; for (i=1; i<npoints-1 && gridFGint[i+1] < totalMass*0.999; i++) htransition = gridH[i];`
written with explicit fuel (the loop runs at most `npoints` times). -/
def htransLoop (gridH gridFGint : List ℚ) (c : ℚ) : ℕ → ℕ → ℚ → ℚ
  | 0, _, acc => acc
  | fuel + 1, i, acc =>
      if i < gridH.length - 1 ∧ gridFGint.getD (i + 1) 0 < c then
        htransLoop gridH gridFGint c fuel (i + 1) (gridH.getD i 0)
      else acc

/-- The value stored in `htransition` by the constructor. -/
def htransitionOf (gridH gridFGint : List ℚ) (totalMass : ℚ) : ℚ :=
  htransLoop gridH gridFGint (totalMass * (999 / 1000)) gridH.length 1 (gridH.getD 0 0)

/-- The validity check of lines 399-407 on the nodal derivatives of the
four splines (its `isFinite` part is vacuous over `ℚ`, see `mkModelData`):
`gridFder[i] <= 0 && gridFGder[i] >= 0 && gridFHder[i] >= 0 && gridFEder[i] >= 0`. -/
def dersOK (gridFder gridFGder gridFHder gridFEder : List ℚ) (n : ℕ) : Prop :=
  ∀ i ∈ List.range n,
    gridFder.getD i 0 ≤ 0 ∧ 0 ≤ gridFGder.getD i 0 ∧
    0 ≤ gridFHder.getD i 0 ∧ 0 ≤ gridFEder.getD i 0

instance (a b c d : List ℚ) (n : ℕ) : Decidable (dersOK a b c d n) :=
  inferInstanceAs (Decidable (∀ i ∈ List.range n, _ ∧ _ ∧ _ ∧ _))

/-- The GL node/weight table of one interior segment: the constructor
chooses the order-6 table for segments shorter than `GLDELTA = 0.7` in
log h and the order-10 table otherwise (lines 27, 334-337). -/
def segTab (gl1 gl2 : List (ℚ × ℚ)) (gridLogH : List ℚ) (k : ℕ) : List (ℚ × ℚ) :=
  let x0 := gridLogH.getD k 0
  let x1 := gridLogH.getD (k + 1) 0
  glPts x0 x1 (if x1 - x0 < 7 / 10 then gl1 else gl2)

/-- The whole body of `SphericalIsotropicModel::SphericalIsotropicModel`
(lines 232-431) up to, but not including, the four `math::LogLogSpline`
constructions of line 427-430 (external; see `SplineSpec`).

Inputs: `logQ`/`expQ` model `std::log`/`std::exp`; `gl1`/`gl2` are the
zipped external order-6/order-10 GL tables; `df`, `pv` and the caller grid
`gridh` as in the C++.  The code stores `gridLogH[i] = log(gridh[i])` and
re-derives `gridH[i] = exp(gridLogH[i])`, which is `gridh[i]` in exact
arithmetic, so `gridH := gridh` here.  In the `FEint[0]` formula the
branch taken when `innerEslope >= 0` reads `-Phi0`; `Phi0 = -INFINITY`
together with `innerEslope >= 0` requires a non-positive `g` (no physical
phase volume) and makes the C++ produce a non-finite value rejected by its
`isFinite` check of line 405 (not representable in `ℚ`; that check's
finiteness part is the only thing dropped from this translation). -/
def mkModelData (logQ expQ : ℚ → ℚ) (gl1 gl2 : List (ℚ × ℚ)) (df : DF)
    (pv : PhaseVolume) (gridh : List ℚ) : Except ModelError ModelData :=
  let gridLogH := gridh.map logQ
  let n := gridh.length
  let gridH := gridh
  let gridF0 := gridH.map df.value
  let gridG := gridH.map pv.g
  let gridE := gridH.map pv.E
  if ¬ (∀ f ∈ gridF0, 0 ≤ f) then .error .invalidDF else
  let sl := rawFslopes logQ df gridLogH gridH gridF0
  match snapInner (gridF0.getD 0 0) sl.1 with
  | .error e => .error e
  | .ok (f0, iSl) =>
  match snapOuter (gridF0.getD (n - 1) 0) sl.2 with
  | .error e => .error e
  | .ok (fN, oSl) =>
  let gridF := (gridF0.set 0 f0).set (n - 1) fN
  let innerE0 := gridE.getD 0 0
  let outerE := gridE.getD (n - 1) 0
  if ¬ (pv.Phi0 < (innerE0 : WithBot ℚ) ∧ innerE0 < outerE ∧ outerE < 0) then
    .error .inconsistentPotentialDF else
  let innerE := match pv.Phi0 with
    | ⊥ => innerE0
    | (p : ℚ) => innerE0 - p
  let h0 := gridH.getD 0 0
  let g0 := gridG.getD 0 0
  let hN := gridH.getD (n - 1) 0
  let gN := gridG.getD (n - 1) 0
  let innerEslope := h0 / g0 / innerE
  let outerEslope := hN / gN / outerE
  let outerFoverE := oSl / outerEslope
  if ¬ (outerEslope < 0) then .error .inconsistentPotentialDF else
  if ¬ (innerEslope + iSl > -1) then .error .inconsistentPotentialDF else
  if ¬ (∀ k ∈ List.range (n - 1), ∀ p ∈ segTab gl1 gl2 gridLogH k,
          0 ≤ df.value (expQ p.1)) then .error .invalidDF else
  let FG0 := f0 * h0 / (1 + iSl)
  let FH0 := f0 * (h0 * h0) / g0 / (1 + innerEslope + iSl)
  let FE0 := f0 * h0 *
    (if 0 ≤ innerEslope then -(pv.Phi0.unbot' 0) / (1 + iSl)
     else -innerE / (1 + iSl + innerEslope))
  let tailF := -fN * outerE / (1 + outerFoverE)
  let tailFG := -(fN * hN) / (1 + oSl)
  let tailFH := -(fN * (hN * hN)) / gN / (1 + outerEslope + oSl)
  let tailFE := fN * hN * outerE / (1 + outerEslope + oSl)
  let gridFint := suffixSums
    ((List.range (n - 1)).map (fun k => segValF expQ df pv (segTab gl1 gl2 gridLogH k))) tailF
  let gridFGint := addLast (prefixSums
    (FG0 :: (List.range (n - 1)).map (fun k => segValFG expQ df (segTab gl1 gl2 gridLogH k)))) tailFG
  let gridFHint := addLast (prefixSums
    (FH0 :: (List.range (n - 1)).map (fun k => segValFH expQ df pv (segTab gl1 gl2 gridLogH k)))) tailFH
  let gridFEint := addLast (prefixSums
    (FE0 :: (List.range (n - 1)).map (fun k => segValFE expQ df pv (segTab gl1 gl2 gridLogH k)))) tailFE
  let totalMass := gridFGint.getLast?.getD 0
  if ¬ (0 < totalMass) then .error .zeroOrNegativeMass else
  let gridFder := (gridF.zip gridG).map (fun p => -p.1 / p.2)
  let gridFGder := gridF
  let gridFHder := ((gridF.zip gridH).zip gridG).map (fun p => p.1.1 * p.1.2 / p.2)
  let gridFEder := (gridF.zip gridE).map (fun p => -(p.1 * p.2))
  if ¬ dersOK gridFder gridFGder gridFHder gridFEder n then
    .error .invalidInterpolators else
  .ok { gridH := gridH, gridF := gridF, gridG := gridG, gridE := gridE,
        gridFint := gridFint, gridFGint := gridFGint,
        gridFHint := gridFHint, gridFEint := gridFEint,
        gridFder := gridFder,
        gridFGder := gridFGder.set (n - 1) 0,
        gridFHder := gridFHder.set (n - 1) 0,
        gridFEder := gridFEder.set (n - 1) 0,
        totalMass := totalMass,
        htransition := htransitionOf gridH gridFGint totalMass }

/-! ### Query methods -/

/-- `SphericalIsotropicModel::evalDeriv` (lines 433-454): recover `f(h)`
(and `df/dh`) from `intfg` below the transition point, from `intf` and the
phase volume above it. -/
def SphericalIsotropicModel.evalDeriv (m : SphericalIsotropicModel) (h : ℚ) : ℚ × ℚ :=
  if h < m.htransition then
    (m.intfg.der h, m.intfg.der2 h)
  else
    (-(m.intf.der h) * m.phasevol.g h,
     -(m.intf.der2 h) * m.phasevol.g h - m.intf.der h * m.phasevol.dgdh h)

/-- `SphericalIsotropicModel::I0` (lines 456-459). -/
def SphericalIsotropicModel.I0 (m : SphericalIsotropicModel) (h : ℚ) : ℚ :=
  m.intf.eval h

/-- `SphericalIsotropicModel::cumulMass` (lines 461-466): `totalMass`
when the argument is `+INFINITY` (modelled by `⊤`), else the `intfg`
spline value. -/
def SphericalIsotropicModel.cumulMass (m : SphericalIsotropicModel) : WithTop ℚ → ℚ
  | ⊤ => m.totalMass
  | (h : ℚ) => m.intfg.eval h

/-- `SphericalIsotropicModel::cumulEkin` (lines 468-471). -/
def SphericalIsotropicModel.cumulEkin (m : SphericalIsotropicModel) (h : ℚ) : ℚ :=
  (3 / 2) * m.intfh.eval h

/-- `SphericalIsotropicModel::cumulEtotal` (lines 473-476). -/
def SphericalIsotropicModel.cumulEtotal (m : SphericalIsotropicModel) (h : ℚ) : ℚ :=
  -(m.intfE.eval h)

/-! ### Contracts of the external spline primitives -/

/-- Modelled from the spec: contract of `math::LogLogSpline` (its source
is not under `src/`; the spec says "log-log interpolation must preserve
monotonicity and handle infinite/singular domains" and "extrapolate them
as constants beyond the last grid point").  A spline built from abscissas
`xs`, values `ys` and nodal derivatives `ders` requires strictly
increasing abscissas, interpolates the data, is monotone non-decreasing
whenever the data are non-decreasing with non-negative nodal derivatives,
and is constant beyond the last node when the last derivative is zero. -/
structure SplineSpec (s : Spline1D) (xs ys ders : List ℚ) : Prop where
  sorted : xs.Chain' (· < ·)
  interp : ∀ i, i < xs.length → s.eval (xs.getD i 0) = ys.getD i 0
  mono : ys.Chain' (· ≤ ·) → (∀ d ∈ ders, 0 ≤ d) → Monotone s.eval
  constBeyond : ders.getLast? = some 0 →
    ∀ x, xs.getLast?.getD 0 ≤ x → s.eval x = ys.getLast?.getD 0

/-- Modelled from the spec: contract of `math::CubicSpline2d` (source not
under `src/`).  It interpolates the tabulated values `vals i j` at the
grid nodes, and reproduces a constant along any grid row whose tabulated
values are all equal (cubic interpolating splines reproduce constants
exactly). -/
structure Spline2DSpec (s : Spline2D) (xs ys : List ℚ) (vals : ℕ → ℕ → ℚ) : Prop where
  interp : ∀ i j, i < xs.length → j < ys.length →
    s.eval (xs.getD i 0) (ys.getD j 0) = vals i j
  constRow : ∀ j c, j < ys.length → (∀ i, i < xs.length → vals i j = c) →
    ∀ x, xs.getD 0 0 ≤ x → x ≤ xs.getLast?.getD 0 → s.eval x (ys.getD j 0) = c
  xminEq : s.xmin = xs.getD 0 0
  xmaxEq : s.xmax = xs.getLast?.getD 0
  yminEq : s.ymin = ys.getD 0 0
  ymaxEq : s.ymax = ys.getLast?.getD 0

/-- The queryable model realizes a constructed data set: its stored
scalars are the computed ones and its four splines satisfy the external
spline contract over the tabulated arrays (lines 427-430). -/
structure Realizes (m : SphericalIsotropicModel) (pv : PhaseVolume) (d : ModelData) : Prop where
  pvEq : m.phasevol = pv
  massEq : m.totalMass = d.totalMass
  htransEq : m.htransition = d.htransition
  intfSpec : SplineSpec m.intf d.gridH d.gridFint d.gridFder
  intfgSpec : SplineSpec m.intfg d.gridH d.gridFGint d.gridFGder
  intfhSpec : SplineSpec m.intfh d.gridH d.gridFHint d.gridFHder
  intfESpec : SplineSpec m.intfE d.gridH d.gridFEint d.gridFEder

/-! ### `SphericalIsotropicModelLocal` pieces needed by the claims -/

/-- The grid-trimming loop at the start of
`SphericalIsotropicModelLocal::init` (lines 492-493):
`while(!gridLogH.empty() && df(exp(gridLogH.back())) <= MIN_VALUE_ROUNDOFF) gridLogH.pop_back();`
The code stores `log` values and evaluates the DF at `exp(gridLogH.back())`,
i.e. at the grid value itself; the loop is modelled directly on the h-grid. -/
def trimLoop (df : DF) : ℕ → List ℚ → List ℚ
  | 0, l => l
  | fuel + 1, l =>
      match l.getLast? with
      | none => l
      | some h => if df.value h ≤ MINV then trimLoop df fuel l.dropLast else l

/-- The trimmed grid produced by lines 492-493. -/
def trimGrid (df : DF) (gridh : List ℚ) : List ℚ :=
  trimLoop df gridh.length gridh

/-- Lines 492-495 of `SphericalIsotropicModelLocal::init`: trim the grid,
then require at least 3 surviving points. -/
def localInitGrid (df : DF) (gridh : List ℚ) : Except String (List ℚ) :=
  let g := trimGrid df gridh
  if g.length < 3 then .error "SphericalIsotropicModelLocal: f(h) is nowhere positive"
  else .ok g

/-- One entry of the 2D tables `gridJ1`/`gridJ3` built by
`SphericalIsotropicModelLocal::init` (lines 534-603) at row `i`, column
`j`.  At `j = 0` the analytic limiting values `log(2/3)` and `log(2/5)`
for `Phi = E` are stored (lines 551-552).  For `j ≥ 1` the accumulated
integrals `J0acc, J1acc, J3acc` (external `math::integrateGL` quadratures
and the hypergeometric last-row override, supplied here as the oracle
`Jacc`) are divided by `dv = sqrt(deltaE)` (supplied as the oracle `dv`),
and invalid ratios fall back to the `Phi = E` values (lines 590-602). -/
def gridJentry (logQ : ℚ → ℚ) (Jacc : ℕ → ℚ × ℚ × ℚ) (dv : ℕ → ℚ) (j : ℕ) : ℚ × ℚ :=
  if j = 0 then (logQ (2 / 3), logQ (2 / 5))
  else
    let a := Jacc j
    let d := dv j
    let J1overJ0 := a.2.1 / a.1 / d
    let J3overJ0 := a.2.2 / a.1 / (d * d * d)
    if J1overJ0 ≤ 0 ∨ J3overJ0 ≤ 0 then (logQ (2 / 3), logQ (2 / 5))
    else (logQ J1overJ0, logQ J3overJ0)

/-- The extended model: the base 1D model plus the two 2D spline
surfaces `intJ1`, `intJ3`. -/
structure SphericalIsotropicModelLocal where
  base : SphericalIsotropicModel
  intJ1 : Spline2D
  intJ3 : Spline2D

/-- `math::clamp`. -/
def clampQ (x lo hi : ℚ) : ℚ := min (max x lo) hi

/-- `SphericalIsotropicModelLocal::sampleVelocity` (lines 660-679).
`frac` models the draw of `math::random(state)`; `findRootRes` models the
result of the external `math::findRoot` on the `VelocitySampleRootFinder`
(`none` for its NaN "cannot bracket" outcome, so that the C++ test
`!(loghEoverhPhi >= 0)` becomes `none`-or-negative).  `sqrtQ`, `expQ`,
`logQ` model the cmath primitives. -/
def sampleVelocity (logQ expQ sqrtQ : ℚ → ℚ) (m : SphericalIsotropicModelLocal)
    (frac : ℚ) (findRootRes : Option ℚ) (Phi : ℚ) : Except String ℚ :=
  if ¬ (Phi < 0) then .error "SphericalIsotropicModelLocal: invalid value of Phi"
  else
    let hPhi := m.base.phasevol.hOf Phi
    let loghPhi := clampQ (logQ hPhi) m.intJ1.xmin m.intJ1.xmax
    let I0plusJ0 := m.base.I0 hPhi
    let maxJ1 := expQ (m.intJ1.eval loghPhi m.intJ1.ymax) * I0plusJ0
    let _target := frac * maxJ1 * sqrtQ (-Phi)
    match findRootRes with
    | none => .ok 0
    | some loghEoverhPhi =>
        if ¬ (0 ≤ loghEoverhPhi) then .ok 0
        else
          let hE := expQ (loghEoverhPhi + loghPhi)
          let E := m.base.phasevol.E hE
          .ok (sqrtQ (2 * (E - Phi)))

/-! ### `computeDensity` (lines 150-186) -/

/-- The error message of line 162. -/
def cdMsg : String := "computeDensity: grid in Phi must be monotonically increasing"

/-- Apply `f j` to every entry of index `j ≤ i` of `l` (the inner
`for(j=0; j<=i; j++)` accumulation of lines 172-179). -/
def updUpTo (l : List ℚ) (i : ℕ) (f : ℕ → ℚ → ℚ) : List ℚ :=
  (List.range l.length).map (fun j => if j ≤ i then f j (l.getD j 0) else l.getD j 0)

/-- Contribution of all GL nodes of segment `i` to `result[j]` (and, with
the extra `dif` factor, to `gridVelDisp[j]`): lines 163-179.  For each
node `y` with weight `w`: `Phi = gridPhi[i] + y^2*deltaPhi`,
`weight = w * 2y * deltaPhi * f(h(Phi)) * 4·π·√2` (the constant
`4*M_PI*M_SQRT2` is irrational and passed in as `c`), and the term
`sqrt(Phi - gridPhi[j]) * weight` is added when `Phi - gridPhi[j] > 0`. -/
def cdContrib (gl : List (ℚ × ℚ)) (sqrtQ : ℚ → ℚ) (c : ℚ) (df pv : ℚ → ℚ)
    (Phii deltaPhi Phij : ℚ) : ℚ × ℚ :=
  ((gl.map (fun p =>
      let Phi := Phii + p.1 * p.1 * deltaPhi
      let weight := p.2 * 2 * p.1 * deltaPhi * df (pv Phi) * c
      let dif := Phi - Phij
      if 0 < dif then (sqrtQ dif * weight, sqrtQ dif * weight * dif) else (0, 0))).foldl
    (fun a b => (a.1 + b.1, a.2 + b.2)) (0, 0))

/-- The segment length `deltaPhi = (i<gridsize-1 ? gridPhi[i+1] : 0) - gridPhi[i]`
of line 160. -/
def cdDelta (gridPhi : List ℚ) (i : ℕ) : ℚ :=
  (if i < gridPhi.length - 1 then gridPhi.getD (i + 1) 0 else 0) - gridPhi.getD i 0

/-- The outer loop of `computeDensity` (lines 159-181), with explicit
fuel; `res`/`vd` are the running `result` and `gridVelDisp` vectors. -/
def cdLoop (gl : List (ℚ × ℚ)) (sqrtQ : ℚ → ℚ) (c : ℚ) (df pv : ℚ → ℚ)
    (gridPhi : List ℚ) : ℕ → ℕ → List ℚ → List ℚ → Except String (List ℚ × List ℚ)
  | 0, _, res, vd => .ok (res, vd)
  | fuel + 1, i, res, vd =>
      if gridPhi.length ≤ i then .ok (res, vd)
      else if cdDelta gridPhi i ≤ 0 then .error cdMsg
      else
        cdLoop gl sqrtQ c df pv gridPhi fuel (i + 1)
          (updUpTo res i (fun j v => v + (cdContrib gl sqrtQ c df pv
            (gridPhi.getD i 0) (cdDelta gridPhi i) (gridPhi.getD j 0)).1))
          (updUpTo vd i (fun j v => v + (cdContrib gl sqrtQ c df pv
            (gridPhi.getD i 0) (cdDelta gridPhi i) (gridPhi.getD j 0)).2))

/-- `computeDensity` (lines 150-186).  Returns the density vector and, when
`wantVelDisp` (a non-null `gridVelDisp` pointer), the dispersion vector
`sqrt(2/3 * vd[i] / result[i])` of lines 182-184. -/
def computeDensity (gl : List (ℚ × ℚ)) (sqrtQ : ℚ → ℚ) (c : ℚ) (df pv : ℚ → ℚ)
    (gridPhi : List ℚ) (wantVelDisp : Bool) : Except String (List ℚ × List ℚ) :=
  let n := gridPhi.length
  match cdLoop gl sqrtQ c df pv gridPhi n 0 (List.replicate n 0) (List.replicate n 0) with
  | .error e => .error e
  | .ok (res, vd) =>
      .ok (res, if wantVelDisp then
        (List.range n).map (fun i => sqrtQ (2 / 3 * vd.getD i 0 / res.getD i 0))
      else List.replicate n 0)

/-! ### The claim C3 comparison definition -/

/-- Stated from the claim's words (for comparison with `htransitionOf`,
not from the source): "the largest grid value `h_i` such that
`FGint(h_i) < 0.999*totalMass`". -/
def claimedHtransition (gridH gridFGint : List ℚ) (totalMass : ℚ) : Option ℚ :=
  (((gridH.zip gridFGint).filter (fun p => p.2 < totalMass * (999 / 1000))).map
    (fun p => p.1)).max?

/-! ### Decidability helper -/

instance {ε α : Type} [DecidableEq ε] [DecidableEq α] : DecidableEq (Except ε α) :=
  fun a b =>
  match a, b with
  | .error x, .error y =>
      if h : x = y then .isTrue (by rw [h]) else .isFalse (fun hc => h (by cases hc; rfl))
  | .ok x, .ok y =>
      if h : x = y then .isTrue (by rw [h]) else .isFalse (fun hc => h (by cases hc; rfl))
  | .error _, .ok _ => .isFalse (fun hc => Except.noConfusion hc)
  | .ok _, .error _ => .isFalse (fun hc => Except.noConfusion hc)

/-! ### A concrete monotone interpolant used to witness the spline contract -/

/-- Helper for `stepInterp`: value of the step function at `x`, where
`acc` is the value to the left of the remaining breakpoints. -/
def stepAt (x : ℚ) : ℚ → List (ℚ × ℚ) → ℚ
  | acc, [] => acc
  | acc, p :: r => if x < p.1 then acc else stepAt x p.2 r

/-- A right-continuous step function through the data points `pts` (used
only to exhibit concrete functions satisfying `SplineSpec`). -/
def stepInterp (pts : List (ℚ × ℚ)) (x : ℚ) : ℚ :=
  match pts with
  | [] => 0
  | p :: r => stepAt x p.2 r

/-! ### Concrete inputs used by the witnesses and the counterexample -/

/-- Degenerate order-6 GL table (6 identical nodes 1/2 with weight 1/6);
the GL tables are external data, no property of the nodes is used. -/
def glTriv1 : List (ℚ × ℚ) := List.replicate 6 (1 / 2, 1 / 6)

/-- Degenerate order-10 GL table. -/
def glTriv2 : List (ℚ × ℚ) := List.replicate 10 (1 / 2, 1 / 10)

/-- A stand-in for `std::log` that maps the concrete grid
`[1/4, 1, 4, 16]` to `[-2, 0, 2, 4]` (monotone on the values used). -/
def logQEx : ℚ → ℚ := fun x =>
  if x < 1 then -2 else if x < 4 then 0 else if x < 16 then 2 else 4

/-- A stand-in for `std::exp`, positive everywhere and mapping the GL
nodes `-1, 1, 3` of the concrete grids to `1/2, 2, 8`. -/
def expQEx : ℚ → ℚ := fun x => if x < 0 then 1 / 2 else if x < 2 then 2 else 8

/-- A concrete phase volume: `E(h) = -1/(h+1)` (so `Phi0 = E(0) = -1`),
`g = dh/dE = (h+1)^2`, `dg/dh = 2(h+1)`, `h(E) = -1/E - 1`. -/
def pvEx : PhaseVolume :=
  ⟨fun h => -1 / (h + 1), fun h => (h + 1) * (h + 1), fun h => 2 * (h + 1),
   ((-1 : ℚ) : WithBot ℚ), fun E => -1 / E - 1⟩

/-- A concrete DF: `f = 1` up to `h = 1`, zero beyond (zero analytic
derivative at the grid ends used). -/
def dfStepEx : DF := ⟨fun h => if h ≤ 1 then 1 else 0, some (fun _ => 0)⟩

/-- A concrete DF for the `htransition` counterexample: `f = 1` up to
`h = 8`, zero beyond. -/
def dfStep8Ex : DF := ⟨fun h => if h ≤ 8 then 1 else 0, some (fun _ => 0)⟩

/-- The DF `f(h) = h^{-1/2}` of the spec's failure scenario, together
with its analytic derivative `df/dh = -h^{-3/2}/2`; on rationals whose
square root is rational (all points where the construction run below
evaluates it) `Rat.sqrt` is the exact square root, so `value`/`deriv`
agree there with `h^{-1/2}` and its derivative. -/
def dfSqrtEx : DF :=
  ⟨fun h => 1 / Rat.sqrt h, some (fun h => -(1 / (2 * Rat.sqrt h * h)))⟩

/-- A concrete DF for the grid-trimming witness: positive up to `h = 2`,
zero beyond. -/
def dfTrimEx : DF := ⟨fun h => if h ≤ 2 then 1 else 0, none⟩

/-- The data computed by `mkModelData` on the 3-point grid `[1/4, 1, 4]`
with `dfStepEx`, `pvEx` and the degenerate tables (checked by `decide`
in the corresponding witness). -/
def dEx : ModelData :=
  { gridH := [1/4, 1, 4], gridF := [1, 1, 0],
    gridG := [25/16, 4, 25], gridE := [-4/5, -1/2, -1/5],
    gridFint := [4/9, 0, 0], gridFGint := [1/4, 5/4, 5/4],
    gridFHint := [1/45, 11/45, 11/45], gridFEint := [1/4, 11/12, 11/12],
    gridFder := [-16/25, -1/4, 0], gridFGder := [1, 1, 0],
    gridFHder := [4/25, 1/4, 0], gridFEder := [4/5, 1/2, 0],
    totalMass := 5/4, htransition := 1/4 }

/-- The data computed by `mkModelData` on the 4-point grid
`[1/4, 1, 4, 16]` with `dfStep8Ex` (the `htransition` counterexample). -/
def dC3 : ModelData :=
  { gridH := [1/4, 1, 4, 16], gridF := [1, 1, 1, 0],
    gridG := [25/16, 4, 25, 289], gridE := [-4/5, -1/2, -1/5, -1/17],
    gridFint := [88/81, 52/81, 16/81, 0], gridFGint := [1/4, 5/4, 21/4, 85/4],
    gridFHint := [1/45, 11/45, 17/15, 1099/405], gridFEint := [1/4, 11/12, 9/4, 145/36],
    gridFder := [-16/25, -1/4, -1/25, 0], gridFGder := [1, 1, 1, 0],
    gridFHder := [4/25, 1/4, 4/25, 0], gridFEder := [4/5, 1/2, 1/5, 0],
    totalMass := 85/4, htransition := 1 }

/-- Witness spline for `intf` over `dEx` (a step interpolant; only the
`SplineSpec` obligations matter, the derivative slots are unused). -/
def intfEx : Spline1D :=
  ⟨stepInterp [((1:ℚ)/4, (4:ℚ)/9), (1, 0), (4, 0)], fun _ => 0, fun _ => 0⟩

/-- Witness spline for `intfg` over `dEx`. -/
def intfgEx : Spline1D :=
  ⟨stepInterp [((1:ℚ)/4, (1:ℚ)/4), (1, 5/4), (4, 5/4)], fun _ => 0, fun _ => 0⟩

/-- Witness spline for `intfh` over `dEx`. -/
def intfhEx : Spline1D :=
  ⟨stepInterp [((1:ℚ)/4, (1:ℚ)/45), (1, 11/45), (4, 11/45)], fun _ => 0, fun _ => 0⟩

/-- Witness spline for `intfE` over `dEx`. -/
def intfEEx : Spline1D :=
  ⟨stepInterp [((1:ℚ)/4, (1:ℚ)/4), (1, 11/12), (4, 11/12)], fun _ => 0, fun _ => 0⟩

/-- Witness model realizing `dEx`. -/
def mEx : SphericalIsotropicModel :=
  ⟨pvEx, intfEx, intfgEx, intfhEx, intfEEx, 5/4, 1/4⟩

/-- A model with distinguishable spline slots, used to witness the
`evalDeriv` branch selection. -/
def mC4 : SphericalIsotropicModel :=
  ⟨pvEx,
   ⟨fun x => x, fun x => x, fun _ => 5⟩,
   ⟨fun x => x, fun x => x + 1, fun x => 2 * x⟩,
   ⟨fun _ => 0, fun _ => 0, fun _ => 0⟩,
   ⟨fun _ => 0, fun _ => 0, fun _ => 0⟩,
   1, 1⟩

/-- A concrete local model used to witness `sampleVelocity`. -/
def locEx : SphericalIsotropicModelLocal :=
  ⟨mC4, ⟨fun _ _ => 0, 0, 1, 0, 1⟩, ⟨fun _ _ => 0, 0, 1, 0, 1⟩⟩

/-- Witness 2D spline for the `J1` surface over the 2×2 grid
`xs = [0,1]`, `ys = [0,1]` with trivial integral oracles. -/
def s1Ex : Spline2D := ⟨fun _ y => if y < 1 then 2 / 3 else 1, 0, 1, 0, 1⟩

/-- Witness 2D spline for the `J3` surface over the same grid. -/
def s3Ex : Spline2D := ⟨fun _ y => if y < 1 then 2 / 5 else 1, 0, 1, 0, 1⟩

/-! ## Helper lemmas -/

theorem snapInner_err {f0 iSl : ℚ} (hf : MINV < f0) (hs : iSl ≤ -1) :
    snapInner f0 iSl = .error .divergentMass := by
  unfold snapInner
  rw [if_neg (not_le.mpr hf), if_pos hs]

theorem snapOuter_err {fN oSl : ℚ} (hf : MINV < fN) (hs : -1 ≤ oSl) :
    snapOuter fN oSl = .error .divergentMass := by
  unfold snapOuter
  rw [if_neg (not_le.mpr hf), if_pos hs]

theorem snapInner_cases (f0 iSl : ℚ) :
    snapInner f0 iSl = .error .divergentMass ∨ ∃ p, snapInner f0 iSl = .ok p := by
  unfold snapInner
  split
  · exact Or.inr ⟨_, rfl⟩
  split
  · exact Or.inl rfl
  · exact Or.inr ⟨_, rfl⟩

theorem trimLoop_take (df : DF) : ∀ (fuel : ℕ) (l : List ℚ),
    ∃ k, k ≤ l.length ∧ trimLoop df fuel l = l.take k ∧
      ∀ x ∈ l.drop k, df.value x ≤ MINV := by
  intro fuel
  induction fuel with
  | zero =>
      intro l
      exact ⟨l.length, le_refl _, by simp [trimLoop], by simp⟩
  | succ fuel ih =>
      intro l
      rcases hl : l.getLast? with _ | a
      · have hnil : l = [] := List.getLast?_eq_none_iff.mp hl
        subst hnil
        exact ⟨0, by simp, by simp [trimLoop], by simp⟩
      · have hne : l ≠ [] := by rintro rfl; simp at hl
        have hlast : l.dropLast ++ [a] = l := by
          have h1 := List.dropLast_append_getLast hne
          have h2 : l.getLast hne = a := by
            have h3 := List.getLast?_eq_getLast l hne
            rw [hl] at h3
            exact (Option.some_inj.mp h3).symm
          rwa [h2] at h1
        simp only [trimLoop]
        rw [hl]
        dsimp only
        by_cases hva : df.value a ≤ MINV
        · rw [if_pos hva]
          obtain ⟨k, hk, heq, hdrop⟩ := ih l.dropLast
          have hk' : k ≤ l.length - 1 := by simpa [List.length_dropLast] using hk
          refine ⟨k, by omega, ?_, ?_⟩
          · rw [heq, List.dropLast_eq_take, List.take_take, min_eq_left hk']
          · intro x hx
            have hsplit : List.drop k l = List.drop k l.dropLast ++ [a] := by
              conv_lhs => rw [← hlast]
              rw [List.drop_append_of_le_length
                (by simpa [List.length_dropLast] using hk')]
            rw [hsplit] at hx
            rcases List.mem_append.mp hx with h1 | h2
            · exact hdrop x h1
            · rw [List.mem_singleton.mp h2]
              exact hva
        · rw [if_neg hva]
          exact ⟨l.length, le_refl _, by simp, by simp⟩

/-- `getLast?.getD` as an indexed access on a nonempty list. -/
theorem getLastD_eq_getD (l : List ℚ) (hne : l ≠ []) :
    l.getLast?.getD 0 = l.getD (l.length - 1) 0 := by
  have hlt : l.length - 1 < l.length := by
    have := List.length_pos.mpr hne
    omega
  rw [List.getLast?_eq_getLast l hne, Option.getD_some,
    List.getLast_eq_getElem, List.getD_eq_getElem l 0 hlt]

theorem cdLoop_error_msg (gl : List (ℚ × ℚ)) (sqrtQ : ℚ → ℚ) (c : ℚ) (df pv : ℚ → ℚ)
    (gridPhi : List ℚ) : ∀ (fuel i : ℕ) (res vd : List ℚ) (e : String),
    cdLoop gl sqrtQ c df pv gridPhi fuel i res vd = .error e → e = cdMsg := by
  intro fuel
  induction fuel with
  | zero =>
      intro i res vd e h
      simp [cdLoop] at h
  | succ fuel ih =>
      intro i res vd e h
      rw [cdLoop] at h
      split at h
      · simp at h
      · split at h
        · cases h; rfl
        · exact ih _ _ _ _ h

theorem cdLoop_ok_delta (gl : List (ℚ × ℚ)) (sqrtQ : ℚ → ℚ) (c : ℚ) (df pv : ℚ → ℚ)
    (gridPhi : List ℚ) : ∀ (fuel i : ℕ) (res vd : List ℚ) (out : List ℚ × List ℚ),
    cdLoop gl sqrtQ c df pv gridPhi fuel i res vd = .ok out →
    ∀ j, i ≤ j → j < gridPhi.length → j < i + fuel → 0 < cdDelta gridPhi j := by
  intro fuel
  induction fuel with
  | zero =>
      intro i res vd out _ j hij hjn hjf
      omega
  | succ fuel ih =>
      intro i res vd out h j hij hjn hjf
      rw [cdLoop] at h
      split at h
      · next hni => omega
      · split at h
        · exact absurd h (by simp)
        · next hnle =>
            rcases eq_or_lt_of_le hij with rfl | hlt
            · exact lt_of_not_le hnle
            · exact ih _ _ _ _ h j hlt hjn (by omega)

theorem cd_all_neg (gridPhi : List ℚ)
    (hd : ∀ j, j < gridPhi.length → 0 < cdDelta gridPhi j) :
    ∀ j, j < gridPhi.length → gridPhi.getD j 0 < 0 := by
  have key : ∀ k j, j < gridPhi.length → gridPhi.length - 1 - j = k → gridPhi.getD j 0 < 0 := by
    intro k
    induction k with
    | zero =>
        intro j hj hk
        have hd' := hd j hj
        rw [cdDelta, if_neg (by omega)] at hd'
        linarith
    | succ k ih =>
        intro j hj hk
        have hd' := hd j hj
        rw [cdDelta, if_pos (by omega)] at hd'
        have := ih (j + 1) (by omega) (by omega)
        linarith
  intro j hj
  exact key (gridPhi.length - 1 - j) j hj rfl

theorem stepAt_ge (x : ℚ) : ∀ (l : List (ℚ × ℚ)) (acc : ℚ),
    List.Chain' (· ≤ ·) (acc :: l.map Prod.snd) → acc ≤ stepAt x acc l := by
  intro l
  induction l with
  | nil => intro acc _; simp [stepAt]
  | cons p r ih =>
      intro acc hch
      rw [List.map_cons, List.chain'_cons] at hch
      simp only [stepAt]
      split
      · exact le_refl _
      · exact le_trans hch.1 (ih p.2 hch.2)

theorem stepAt_mono {x1 x2 : ℚ} (hx : x1 ≤ x2) : ∀ (l : List (ℚ × ℚ)) (acc : ℚ),
    List.Chain' (· ≤ ·) (acc :: l.map Prod.snd) →
    stepAt x1 acc l ≤ stepAt x2 acc l := by
  intro l
  induction l with
  | nil => intro acc _; simp [stepAt]
  | cons p r ih =>
      intro acc hch
      rw [List.map_cons, List.chain'_cons] at hch
      simp only [stepAt]
      by_cases hx1 : x1 < p.1
      · rw [if_pos hx1]
        by_cases hx2 : x2 < p.1
        · rw [if_pos hx2]
        · rw [if_neg hx2]
          exact le_trans hch.1 (stepAt_ge x2 r p.2 hch.2)
      · rw [if_neg hx1, if_neg (fun hx2 => hx1 (lt_of_le_of_lt hx hx2))]
        exact ih p.2 hch.2

theorem stepInterp_monotone (pts : List (ℚ × ℚ))
    (h : List.Chain' (· ≤ ·) (pts.map Prod.snd)) : Monotone (stepInterp pts) := by
  intro x1 x2 hx
  cases pts with
  | nil => simp [stepInterp]
  | cons p r =>
      simp only [stepInterp]
      rw [List.map_cons] at h
      exact stepAt_mono hx r p.2 h

theorem getLastD_cons (a d : ℚ) (l : List ℚ) :
    (a :: l).getLast?.getD d = l.getLast?.getD a := by
  cases l with
  | nil => rfl
  | cons b m =>
      rw [List.getLast?_cons_cons]
      rw [List.getLast?_eq_getLast (b :: m) (by simp), Option.getD_some, Option.getD_some]

theorem stepAt_last (x : ℚ) : ∀ (l : List (ℚ × ℚ)) (acc : ℚ),
    (∀ p ∈ l, p.1 ≤ x) → stepAt x acc l = (l.map Prod.snd).getLast?.getD acc := by
  intro l
  induction l with
  | nil => intro acc _; simp [stepAt]
  | cons p r ih =>
      intro acc hle
      simp only [stepAt]
      rw [if_neg (not_lt.mpr (hle p (List.mem_cons_self _ _)))]
      rw [ih p.2 (fun q hq => hle q (List.mem_cons_of_mem _ hq))]
      rw [List.map_cons, getLastD_cons]

theorem stepInterp_last (pts : List (ℚ × ℚ)) (x : ℚ) (h : ∀ p ∈ pts, p.1 ≤ x) :
    stepInterp pts x = (pts.map Prod.snd).getLast?.getD 0 := by
  cases pts with
  | nil => rfl
  | cons p r =>
      simp only [stepInterp]
      rw [stepAt_last x r p.2 (fun q hq => h q (List.mem_cons_of_mem _ hq))]
      rw [List.map_cons, getLastD_cons]

theorem intfEx_spec : SplineSpec intfEx [1/4, 1, 4] [4/9, 0, 0] [-16/25, -1/4, 0] := by
  refine ⟨by norm_num [List.chain'_cons], ?_, ?_, ?_⟩
  · intro i hi
    have hi3 : i < 3 := by simpa using hi
    interval_cases i <;> with_unfolding_all decide
  · intro hch _
    exact absurd hch (by norm_num [List.chain'_cons])
  · intro _ x hx
    have hx4 : (4:ℚ) ≤ x := by simpa using hx
    rw [show intfEx.eval = stepInterp [((1:ℚ)/4, (4:ℚ)/9), (1, 0), (4, 0)] from rfl,
      stepInterp_last _ x ?_]
    · with_unfolding_all decide
    · intro p hp
      fin_cases hp <;> dsimp <;> linarith

theorem intfgEx_spec : SplineSpec intfgEx [1/4, 1, 4] [1/4, 5/4, 5/4] [1, 1, 0] := by
  refine ⟨by norm_num [List.chain'_cons], ?_, ?_, ?_⟩
  · intro i hi
    have hi3 : i < 3 := by simpa using hi
    interval_cases i <;> with_unfolding_all decide
  · intro _ _
    exact stepInterp_monotone _ (by norm_num [List.chain'_cons])
  · intro _ x hx
    have hx4 : (4:ℚ) ≤ x := by simpa using hx
    rw [show intfgEx.eval = stepInterp [((1:ℚ)/4, (1:ℚ)/4), (1, 5/4), (4, 5/4)] from rfl,
      stepInterp_last _ x ?_]
    · with_unfolding_all decide
    · intro p hp
      fin_cases hp <;> dsimp <;> linarith

theorem intfhEx_spec : SplineSpec intfhEx [1/4, 1, 4] [1/45, 11/45, 11/45] [4/25, 1/4, 0] := by
  refine ⟨by norm_num [List.chain'_cons], ?_, ?_, ?_⟩
  · intro i hi
    have hi3 : i < 3 := by simpa using hi
    interval_cases i <;> with_unfolding_all decide
  · intro _ _
    exact stepInterp_monotone _ (by norm_num [List.chain'_cons])
  · intro _ x hx
    have hx4 : (4:ℚ) ≤ x := by simpa using hx
    rw [show intfhEx.eval = stepInterp [((1:ℚ)/4, (1:ℚ)/45), (1, 11/45), (4, 11/45)] from rfl,
      stepInterp_last _ x ?_]
    · with_unfolding_all decide
    · intro p hp
      fin_cases hp <;> dsimp <;> linarith

theorem intfEEx_spec : SplineSpec intfEEx [1/4, 1, 4] [1/4, 11/12, 11/12] [4/5, 1/2, 0] := by
  refine ⟨by norm_num [List.chain'_cons], ?_, ?_, ?_⟩
  · intro i hi
    have hi3 : i < 3 := by simpa using hi
    interval_cases i <;> with_unfolding_all decide
  · intro _ _
    exact stepInterp_monotone _ (by norm_num [List.chain'_cons])
  · intro _ x hx
    have hx4 : (4:ℚ) ≤ x := by simpa using hx
    rw [show intfEEx.eval = stepInterp [((1:ℚ)/4, (1:ℚ)/4), (1, 11/12), (4, 11/12)] from rfl,
      stepInterp_last _ x ?_]
    · with_unfolding_all decide
    · intro p hp
      fin_cases hp <;> dsimp <;> linarith

theorem mEx_realizes : Realizes mEx pvEx dEx :=
  ⟨rfl, rfl, rfl, intfEx_spec, intfgEx_spec, intfhEx_spec, intfEEx_spec⟩

theorem snapInner_ok_cases {f0 iSl a b : ℚ} (h : snapInner f0 iSl = .ok (a, b)) :
    (a = 0 ∧ b = 0) ∨ (a = f0 ∧ b = iSl ∧ MINV < f0 ∧ -1 < b) := by
  unfold snapInner at h
  split at h
  · cases h
    exact Or.inl ⟨rfl, rfl⟩
  · split at h
    · exact Except.noConfusion h
    · next hf hs =>
        cases h
        exact Or.inr ⟨rfl, rfl, not_le.mp hf, not_le.mp hs⟩

theorem snapOuter_ok_cases {fN oSl a b : ℚ} (h : snapOuter fN oSl = .ok (a, b)) :
    (a = 0 ∧ b = 0) ∨ (a = fN ∧ b = oSl ∧ MINV < fN ∧ b < -1) := by
  unfold snapOuter at h
  split at h
  · cases h
    exact Or.inl ⟨rfl, rfl⟩
  · split at h
    · exact Except.noConfusion h
    · next hf hs =>
        cases h
        exact Or.inr ⟨rfl, rfl, not_le.mp hf, not_le.mp hs⟩

theorem MINV_pos : 0 < MINV := by
  norm_num [MINV]

theorem getD_nonneg (l : List ℚ) (hl : ∀ x ∈ l, 0 < x) (i : ℕ) : 0 ≤ l.getD i 0 := by
  by_cases hi : i < l.length
  · rw [List.getD_eq_getElem _ _ hi]
    exact le_of_lt (hl _ (List.getElem_mem hi))
  · rw [List.getD_eq_default _ _ (by omega)]

theorem segValFG_nonneg (expQ : ℚ → ℚ) (df : DF) (pts : List (ℚ × ℚ))
    (hf : ∀ p ∈ pts, 0 ≤ df.value (expQ p.1)) (hw : ∀ p ∈ pts, 0 ≤ p.2)
    (hexp : ∀ x, 0 < expQ x) : 0 ≤ segValFG expQ df pts := by
  apply List.sum_nonneg
  intro t ht
  obtain ⟨p, hp, rfl⟩ := List.mem_map.mp ht
  exact mul_nonneg (mul_nonneg (hf p hp) (le_of_lt (hexp p.1))) (hw p hp)

theorem chain'_lt_getD (l : List ℚ) (h : l.Chain' (· < ·)) (k : ℕ)
    (hk : k + 1 < l.length) : l.getD k 0 < l.getD (k + 1) 0 := by
  rw [List.getD_eq_getElem _ _ (by omega), List.getD_eq_getElem _ _ hk]
  exact List.chain'_iff_get.mp h k (by omega)

theorem glPts_snd_nonneg (x0 x1 : ℚ) (tab : List (ℚ × ℚ)) (hx : x0 ≤ x1)
    (hw : ∀ p ∈ tab, 0 ≤ p.2) : ∀ p ∈ glPts x0 x1 tab, 0 ≤ p.2 := by
  intro p hp
  obtain ⟨q, hq, rfl⟩ := List.mem_map.mp hp
  exact mul_nonneg (hw q hq) (by linarith)

theorem segTab_snd_nonneg (gl1 gl2 : List (ℚ × ℚ)) (gridLogH : List ℚ) (k : ℕ)
    (hk : k + 1 < gridLogH.length) (hmono : gridLogH.Chain' (· < ·))
    (hw1 : ∀ p ∈ gl1, 0 ≤ p.2) (hw2 : ∀ p ∈ gl2, 0 ≤ p.2) :
    ∀ p ∈ segTab gl1 gl2 gridLogH k, 0 ≤ p.2 := by
  have hx : gridLogH.getD k 0 ≤ gridLogH.getD (k + 1) 0 :=
    le_of_lt (chain'_lt_getD gridLogH hmono k hk)
  simp only [segTab]
  split
  · exact glPts_snd_nonneg _ _ gl1 hx hw1
  · exact glPts_snd_nonneg _ _ gl2 hx hw2

theorem prefixSums_chain (l : List ℚ) (h : ∀ x ∈ l.tail, 0 ≤ x) :
    (prefixSums l).Chain' (· ≤ ·) := by
  rw [List.chain'_iff_get]
  intro i hi
  have hi' : i + 1 < l.length := by
    have h2 := hi
    simp only [prefixSums, List.length_map, List.length_range] at h2
    omega
  have e1 : (prefixSums l).get ⟨i, by simpa [prefixSums] using (by omega : i < l.length)⟩ =
      (l.take (i + 1)).sum := by
    simp [prefixSums]
  have e2 : (prefixSums l).get ⟨i + 1, by simpa [prefixSums] using hi'⟩ =
      (l.take (i + 2)).sum := by
    simp [prefixSums]
  rw [e1, e2, List.sum_take_succ l (i + 1) hi']
  have hmem : l[i + 1] ∈ l.tail := by
    have htl : i < l.tail.length := by
      simp only [List.length_tail]
      omega
    rw [← List.getElem_tail l i htl]
    exact List.getElem_mem htl
  have := h _ hmem
  linarith

theorem prefixSums_getLastD (l : List ℚ) (hne : l ≠ []) :
    (prefixSums l).getLast?.getD 0 = l.sum := by
  have hlen : 0 < l.length := List.length_pos.mpr hne
  have hne' : prefixSums l ≠ [] := by
    intro hnil
    have h0 : (prefixSums l).length = 0 := by rw [hnil]; rfl
    simp only [prefixSums, List.length_map, List.length_range] at h0
    omega
  rw [getLastD_eq_getD _ hne']
  have hlt : (prefixSums l).length - 1 < (prefixSums l).length := by
    simp only [prefixSums, List.length_map, List.length_range]
    omega
  rw [List.getD_eq_getElem _ 0 hlt]
  simp only [prefixSums, List.getElem_map, List.getElem_range, List.length_map,
    List.length_range]
  rw [Nat.sub_add_cancel hlen, List.take_length]

theorem addLast_chain (l : List ℚ) (c : ℚ) (hc : 0 ≤ c)
    (h : l.Chain' (· ≤ ·)) : (addLast l c).Chain' (· ≤ ·) := by
  induction l with
  | nil => simp [addLast]
  | cons a t ih =>
      cases t with
      | nil => simp [addLast]
      | cons b r =>
          have heq : addLast (a :: b :: r) c = a :: addLast (b :: r) c := by
            simp only [addLast, List.dropLast_cons₂, List.getLast?_cons_cons,
              List.cons_append]
          rw [heq]
          obtain ⟨hab, ht⟩ := List.chain'_cons.mp h
          have hrec := ih ht
          rw [List.chain'_cons']
          refine ⟨?_, hrec⟩
          intro y hy
          cases r with
          | nil =>
              simp only [addLast, List.dropLast_single, List.nil_append,
                List.getLast?_singleton, Option.getD_some, List.head?_cons,
                Option.mem_def, Option.some_inj] at hy
              subst hy
              linarith
          | cons u v =>
              have : addLast (b :: u :: v) c = b :: addLast (u :: v) c := by
                simp only [addLast, List.dropLast_cons₂, List.getLast?_cons_cons,
                  List.cons_append]
              rw [this] at hy
              simp only [List.head?_cons, Option.mem_def, Option.some_inj] at hy
              subst hy
              exact hab

theorem addLast_length (l : List ℚ) (c : ℚ) (hne : l ≠ []) :
    (addLast l c).length = l.length := by
  have h1 : 0 < l.length := List.length_pos.mpr hne
  simp only [addLast, List.length_append, List.length_dropLast, List.length_cons,
    List.length_nil]
  omega

theorem addLast_getLastD (l : List ℚ) (c : ℚ) :
    (addLast l c).getLast?.getD 0 = l.getLast?.getD 0 + c := by
  simp [addLast, List.getLast?_concat]

theorem set_last_getLast? (l : List ℚ) (a : ℚ) (hne : l ≠ []) :
    (l.set (l.length - 1) a).getLast? = some a := by
  have hlen : 0 < l.length := List.length_pos.mpr hne
  rw [List.getLast?_eq_getElem?]
  simp only [List.length_set]
  rw [List.getElem?_eq_getElem (by simp; omega)]
  congr 1
  exact List.getElem_set_self _

/-- Everything the `.ok` outcome of the constructor pins down about the
parts of the data relevant to the mass integral, extracted by walking the
check sequence of `mkModelData`. -/
theorem mkModelData_ok_elim {logQ expQ : ℚ → ℚ} {gl1 gl2 : List (ℚ × ℚ)} {df : DF}
    {pv : PhaseVolume} {gridh : List ℚ} {d : ModelData}
    (h : mkModelData logQ expQ gl1 gl2 df pv gridh = .ok d) :
    (∀ f ∈ gridh.map df.value, 0 ≤ f) ∧
    (∀ k ∈ List.range (gridh.length - 1),
      ∀ p ∈ segTab gl1 gl2 (gridh.map logQ) k, 0 ≤ df.value (expQ p.1)) ∧
    (gridh.map pv.E).getD 0 0 < (gridh.map pv.E).getD (gridh.length - 1) 0 ∧
    ∃ f0 iSl fN oSl,
      snapInner ((gridh.map df.value).getD 0 0)
        (rawFslopes logQ df (gridh.map logQ) gridh (gridh.map df.value)).1 = .ok (f0, iSl) ∧
      snapOuter ((gridh.map df.value).getD (gridh.length - 1) 0)
        (rawFslopes logQ df (gridh.map logQ) gridh (gridh.map df.value)).2 = .ok (fN, oSl) ∧
      d.gridH = gridh ∧
      d.gridFGint = addLast (prefixSums ((f0 * gridh.getD 0 0 / (1 + iSl)) ::
          (List.range (gridh.length - 1)).map
            (fun k => segValFG expQ df (segTab gl1 gl2 (gridh.map logQ) k))))
        (-(fN * gridh.getD (gridh.length - 1) 0) / (1 + oSl)) ∧
      d.gridFGder =
        (((gridh.map df.value).set 0 f0).set (gridh.length - 1) fN).set
          (gridh.length - 1) 0 ∧
      d.totalMass = d.gridFGint.getLast?.getD 0 ∧
      0 < d.totalMass ∧
      d.htransition = htransitionOf d.gridH d.gridFGint d.totalMass := by
  simp only [mkModelData] at h
  split at h
  · exact absurd h (by simp)
  next hF =>
  rcases hsi : snapInner ((gridh.map df.value).getD 0 0)
      (rawFslopes logQ df (gridh.map logQ) gridh (gridh.map df.value)).1 with e | ⟨f0, iSl⟩
  · rw [hsi] at h
    exact absurd h (by simp)
  rw [hsi] at h
  rcases hso : snapOuter ((gridh.map df.value).getD (gridh.length - 1) 0)
      (rawFslopes logQ df (gridh.map logQ) gridh (gridh.map df.value)).2 with e | ⟨fN, oSl⟩
  · rw [hso] at h
    exact absurd h (by simp)
  rw [hso] at h
  dsimp only at h
  split at h
  · exact absurd h (by simp)
  next hE =>
  split at h
  · exact absurd h (by simp)
  next hOE =>
  split at h
  · exact absurd h (by simp)
  next hIE =>
  split at h
  · exact absurd h (by simp)
  next hQ =>
  split at h
  · exact absurd h (by simp)
  next hM =>
  split at h
  · exact absurd h (by simp)
  next hD =>
  rw [not_not] at hF hE hOE hIE hQ hM hD
  injection h with h'
  subst h'
  exact ⟨hF, hQ, hE.2.1, f0, iSl, fN, oSl, rfl, rfl, rfl, rfl, rfl, rfl, hM, rfl⟩

/-- The mass-array invariants of a successful construction: the tabulated
`gridFGint` is non-decreasing, has one entry per grid node, ends at
`totalMass > 0`, and the nodal derivative array handed to the `intfg`
spline is non-negative with a zero last entry.  External facts needed: the
GL weights are non-negative, `exp` is positive, the log-grid is strictly
increasing (the caller grid is ascending and `log` monotone), and the
h-grid values are positive (they are values of `exp`). -/
theorem mk_ok_FGint_facts {logQ expQ : ℚ → ℚ} {gl1 gl2 : List (ℚ × ℚ)} {df : DF}
    {pv : PhaseVolume} {gridh : List ℚ} {d : ModelData}
    (hok : mkModelData logQ expQ gl1 gl2 df pv gridh = .ok d)
    (hw1 : ∀ p ∈ gl1, 0 ≤ p.2) (hw2 : ∀ p ∈ gl2, 0 ≤ p.2)
    (hexp : ∀ x : ℚ, 0 < expQ x)
    (hlog : (gridh.map logQ).Chain' (· < ·))
    (hpos : ∀ x ∈ gridh, 0 < x) :
    d.gridH = gridh ∧
    2 ≤ gridh.length ∧
    d.gridFGint.length = gridh.length ∧
    d.gridFGint.Chain' (· ≤ ·) ∧
    d.totalMass = d.gridFGint.getLast?.getD 0 ∧
    0 < d.totalMass ∧
    d.htransition = htransitionOf d.gridH d.gridFGint d.totalMass ∧
    (∀ x ∈ d.gridFGder, 0 ≤ x) ∧
    d.gridFGder.getLast? = some 0 := by
  obtain ⟨hF, hQ, hEE, f0, iSl, fN, oSl, hsi, hso, hgH, hFG, hFGder, hmass, hmpos, hht⟩ :=
    mkModelData_ok_elim hok
  have hn2 : 2 ≤ gridh.length := by
    by_contra hn
    have h10 : gridh.length - 1 = 0 := by omega
    rw [h10] at hEE
    exact lt_irrefl _ hEE
  have hFnonneg : ∀ i, 0 ≤ (gridh.map df.value).getD i 0 := by
    intro i
    by_cases hi : i < (gridh.map df.value).length
    · rw [List.getD_eq_getElem _ _ hi]
      exact hF _ (List.getElem_mem hi)
    · rw [List.getD_eq_default _ _ (by omega)]
  have hf0nn : 0 ≤ f0 := by
    rcases snapInner_ok_cases hsi with ⟨rfl, _⟩ | ⟨rfl, _, hM, _⟩
    · exact le_refl 0
    · exact le_of_lt (lt_trans MINV_pos hM)
  have hfNnn : 0 ≤ fN := by
    rcases snapOuter_ok_cases hso with ⟨rfl, _⟩ | ⟨rfl, _, hM, _⟩
    · exact le_refl 0
    · exact le_of_lt (lt_trans MINV_pos hM)
  have hFG0nn : 0 ≤ f0 * gridh.getD 0 0 / (1 + iSl) := by
    rcases snapInner_ok_cases hsi with ⟨rfl, rfl⟩ | ⟨_, _, _, hgt⟩
    · simp
    · exact div_nonneg (mul_nonneg hf0nn (getD_nonneg gridh hpos 0)) (by linarith)
  have htailnn : 0 ≤ -(fN * gridh.getD (gridh.length - 1) 0) / (1 + oSl) := by
    rcases snapOuter_ok_cases hso with ⟨rfl, rfl⟩ | ⟨_, _, _, hlt⟩
    · simp
    · have h1 : 0 ≤ fN * gridh.getD (gridh.length - 1) 0 / -(1 + oSl) :=
        div_nonneg (mul_nonneg hfNnn (getD_nonneg gridh hpos _)) (by linarith)
      rw [div_neg] at h1
      rw [neg_div]
      linarith
  have hsegnn : ∀ x ∈ (List.range (gridh.length - 1)).map
      (fun k => segValFG expQ df (segTab gl1 gl2 (gridh.map logQ) k)), 0 ≤ x := by
    intro x hx
    obtain ⟨k, hk, rfl⟩ := List.mem_map.mp hx
    have hk' : k < gridh.length - 1 := List.mem_range.mp hk
    apply segValFG_nonneg
    · exact hQ k hk
    · exact segTab_snd_nonneg gl1 gl2 (gridh.map logQ) k
        (by simp only [List.length_map]; omega) hlog hw1 hw2
    · exact hexp
  have hprene : (f0 * gridh.getD 0 0 / (1 + iSl)) ::
      (List.range (gridh.length - 1)).map
        (fun k => segValFG expQ df (segTab gl1 gl2 (gridh.map logQ) k)) ≠ [] := by
    simp
  have hpsne : prefixSums ((f0 * gridh.getD 0 0 / (1 + iSl)) ::
      (List.range (gridh.length - 1)).map
        (fun k => segValFG expQ df (segTab gl1 gl2 (gridh.map logQ) k))) ≠ [] := by
    intro hnil
    have h0 := congrArg List.length hnil
    simp only [prefixSums, List.length_map, List.length_range, List.length_nil,
      List.length_cons] at h0
    omega
  have hchain : d.gridFGint.Chain' (· ≤ ·) := by
    rw [hFG]
    apply addLast_chain _ _ htailnn
    apply prefixSums_chain
    intro x hx
    exact hsegnn x (by simpa using hx)
  have hlen : d.gridFGint.length = gridh.length := by
    rw [hFG, addLast_length _ _ hpsne]
    simp only [prefixSums, List.length_map, List.length_range, List.length_cons]
    omega
  have hdernn : ∀ x ∈ d.gridFGder, 0 ≤ x := by
    rw [hFGder]
    intro x hx
    rcases List.mem_or_eq_of_mem_set hx with hx1 | rfl
    · rcases List.mem_or_eq_of_mem_set hx1 with hx2 | rfl
      · rcases List.mem_or_eq_of_mem_set hx2 with hx3 | rfl
        · exact hF x hx3
        · exact hf0nn
      · exact hfNnn
    · exact le_refl 0
  have hderlast : d.gridFGder.getLast? = some 0 := by
    rw [hFGder]
    have hne : ((gridh.map df.value).set 0 f0).set (gridh.length - 1) fN ≠ [] := by
      intro hnil
      have h0 : (((gridh.map df.value).set 0 f0).set (gridh.length - 1) fN).length = 0 := by
        rw [hnil]; rfl
      simp only [List.length_set, List.length_map] at h0
      omega
    have hlen2 : (((gridh.map df.value).set 0 f0).set (gridh.length - 1) fN).length =
        gridh.length := by
      simp
    have hkey := set_last_getLast? _ 0 hne
    rw [hlen2] at hkey
    exact hkey
  exact ⟨hgH, hn2, hlen, hchain, hmass, hmpos, hht, hdernn, hderlast⟩

/-! ## Claim theorems -/

/-- C1.  Constructing a `SphericalIsotropicModel` fails with `DivergentMass`
whenever the inferred inner power-law slope of f(h) is `≤ -1` or the
inferred outer slope is `≥ -1`, provided the corresponding boundary DF
value exceeds the `MIN_VALUE_ROUNDOFF ≈ 1e-100` snap-to-zero threshold
(the DF being non-negative on the grid, as required by step 2 of the
constructor which runs first).  The concrete `f(h) = h^{-1/2}` instance
of the claim is the witness below. -/
theorem C1_divergentMass (logQ expQ : ℚ → ℚ) (gl1 gl2 : List (ℚ × ℚ)) (df : DF)
    (pv : PhaseVolume) (gridh : List ℚ)
    (hF : ∀ f ∈ gridh.map df.value, 0 ≤ f)
    (hbad : (MINV < (gridh.map df.value).getD 0 0 ∧
        (rawFslopes logQ df (gridh.map logQ) gridh (gridh.map df.value)).1 ≤ -1) ∨
      (MINV < (gridh.map df.value).getD (gridh.length - 1) 0 ∧
        -1 ≤ (rawFslopes logQ df (gridh.map logQ) gridh (gridh.map df.value)).2)) :
    mkModelData logQ expQ gl1 gl2 df pv gridh = .error .divergentMass := by
  simp only [mkModelData]
  rw [if_neg (not_not_intro hF)]
  rcases hbad with ⟨hf0, hsl⟩ | ⟨hfN, hsl⟩
  · rw [snapInner_err hf0 hsl]
  · rcases snapInner_cases ((gridh.map df.value).getD 0 0)
      (rawFslopes logQ df (gridh.map logQ) gridh (gridh.map df.value)).1 with herr | ⟨⟨f0, iSl⟩, hok⟩
    · rw [herr]
    · rw [hok]
      rw [snapOuter_err hfN hsl]

/-- Witness for C1: the spec's concrete failure scenario `f(h) = h^{-1/2}`
(outer slope `-1/2 ≥ -1`, boundary value `1/2` above the threshold)
on the grid `[1/4, 1, 4]` raises `DivergentMass`. -/
theorem C1_divergentMass_witness :
    ((∀ f ∈ ([1/4, 1, 4] : List ℚ).map dfSqrtEx.value, 0 ≤ f) ∧
      MINV < (([1/4, 1, 4] : List ℚ).map dfSqrtEx.value).getD
        (([1/4, 1, 4] : List ℚ).length - 1) 0 ∧
      -1 ≤ (rawFslopes logQEx dfSqrtEx (([1/4, 1, 4] : List ℚ).map logQEx)
        [1/4, 1, 4] (([1/4, 1, 4] : List ℚ).map dfSqrtEx.value)).2) ∧
    mkModelData logQEx expQEx glTriv1 glTriv2 dfSqrtEx pvEx [1/4, 1, 4] =
      .error .divergentMass :=
  ⟨⟨by with_unfolding_all decide, by with_unfolding_all decide,
    by with_unfolding_all decide⟩,
   C1_divergentMass logQEx expQEx glTriv1 glTriv2 dfSqrtEx pvEx [1/4, 1, 4]
     (by with_unfolding_all decide)
     (Or.inr ⟨by with_unfolding_all decide, by with_unfolding_all decide⟩)⟩

/-- C4.  `evalDeriv` returns `f` equal to the derivative of the `FGint`
spline (`intfg`) when `h < htransition`, and `-g(h)` times the derivative
of the `Fint` spline (`intf`) when `h ≥ htransition`; the `df/dh` output
is the second derivative of `intfg` in the first branch and the product
rule `-der2*g - der*dg/dh` in the second. -/
theorem C4_evalDeriv_branches (m : SphericalIsotropicModel) (h : ℚ) :
    (h < m.htransition → m.evalDeriv h = (m.intfg.der h, m.intfg.der2 h)) ∧
    (m.htransition ≤ h → m.evalDeriv h =
      (-(m.intf.der h) * m.phasevol.g h,
       -(m.intf.der2 h) * m.phasevol.g h - m.intf.der h * m.phasevol.dgdh h)) := by
  constructor
  · intro hlt
    simp [SphericalIsotropicModel.evalDeriv, hlt]
  · intro hge
    simp [SphericalIsotropicModel.evalDeriv, not_lt.mpr hge]

/-- Witness for C4 at `h = 0 < htransition = 1` and `h = 2 ≥ 1`. -/
theorem C4_evalDeriv_branches_witness :
    mC4.evalDeriv 0 = (mC4.intfg.der 0, mC4.intfg.der2 0) ∧
    mC4.evalDeriv 2 =
      (-(mC4.intf.der 2) * mC4.phasevol.g 2,
       -(mC4.intf.der2 2) * mC4.phasevol.g 2 - mC4.intf.der 2 * mC4.phasevol.dgdh 2) :=
  ⟨(C4_evalDeriv_branches mC4 0).1 (by with_unfolding_all decide),
   (C4_evalDeriv_branches mC4 2).2 (by with_unfolding_all decide)⟩

/-- C5.  `cumulMass` returns exactly the stored `totalMass` at
`h = +INFINITY` and the `FGint` spline value `intfg(h)` at every finite
`h`. -/
theorem C5_cumulMass_values (m : SphericalIsotropicModel) :
    m.cumulMass ⊤ = m.totalMass ∧
    ∀ x : ℚ, m.cumulMass (x : WithTop ℚ) = m.intfg.eval x :=
  ⟨rfl, fun _ => rfl⟩

/-- C7.  For every `Phi < 0`, `sampleVelocity` never throws; when the
root-finder outcome is not `≥ 0` (NaN, modelled `none`, or negative) it
returns the sentinel `0`; and it raises `invalid_argument` exactly when
`Phi` is not strictly negative. -/
theorem C7_sampleVelocity_total (logQ expQ sqrtQ : ℚ → ℚ)
    (m : SphericalIsotropicModelLocal) (frac : ℚ) (r : Option ℚ) (Phi : ℚ) :
    (Phi < 0 → ∃ v, sampleVelocity logQ expQ sqrtQ m frac r Phi = .ok v) ∧
    (Phi < 0 → (r = none ∨ ∃ w, r = some w ∧ w < 0) →
      sampleVelocity logQ expQ sqrtQ m frac r Phi = .ok 0) ∧
    ((∃ e, sampleVelocity logQ expQ sqrtQ m frac r Phi = .error e) ↔ ¬ (Phi < 0)) := by
  refine ⟨?_, ?_, ?_, ?_⟩
  · intro hPhi
    simp only [sampleVelocity]
    rw [if_neg (not_not_intro hPhi)]
    cases r with
    | none => exact ⟨0, rfl⟩
    | some w =>
        dsimp only
        split
        · exact ⟨0, rfl⟩
        · exact ⟨_, rfl⟩
  · intro hPhi hr
    simp only [sampleVelocity]
    rw [if_neg (not_not_intro hPhi)]
    rcases hr with rfl | ⟨w, rfl, hw⟩
    · rfl
    · dsimp only
      rw [if_pos (not_le.mpr hw)]
  · rintro ⟨e, he⟩
    intro hPhi
    simp only [sampleVelocity] at he
    rw [if_neg (not_not_intro hPhi)] at he
    cases r with
    | none => exact Except.noConfusion he
    | some w =>
        dsimp only at he
        split at he <;> exact Except.noConfusion he
  · intro hPhi
    refine ⟨"SphericalIsotropicModelLocal: invalid value of Phi", ?_⟩
    simp only [sampleVelocity]
    rw [if_pos hPhi]

/-- Witness for C7: bracket failure at `Phi = -1` yields `0`; at
`Phi = 1` an error is raised. -/
theorem C7_sampleVelocity_total_witness :
    sampleVelocity id id id locEx (1/2) none (-1) = .ok 0 ∧
    (∃ e, sampleVelocity id id id locEx (1/2) none 1 = .error e) :=
  ⟨(C7_sampleVelocity_total id id id locEx (1/2) none (-1)).2.1
      (by norm_num) (Or.inl rfl),
   (C7_sampleVelocity_total id id id locEx (1/2) none 1).2.2.mpr (by norm_num)⟩

/-- C8.  `computeDensity` raises the runtime error whose message names the
monotonicity violation whenever `gridPhi` is not strictly increasing; no
density vector is returned. -/
theorem C8_computeDensity_monotone_check (gl : List (ℚ × ℚ)) (sqrtQ : ℚ → ℚ)
    (c : ℚ) (df pv : ℚ → ℚ) (gridPhi : List ℚ) (want : Bool)
    (hbad : ∃ i, i + 1 < gridPhi.length ∧ gridPhi.getD (i + 1) 0 ≤ gridPhi.getD i 0) :
    computeDensity gl sqrtQ c df pv gridPhi want = .error cdMsg := by
  obtain ⟨i, hi, hle⟩ := hbad
  simp only [computeDensity]
  rcases hres : cdLoop gl sqrtQ c df pv gridPhi gridPhi.length 0
      (List.replicate gridPhi.length 0) (List.replicate gridPhi.length 0) with e | out
  · rw [cdLoop_error_msg gl sqrtQ c df pv gridPhi _ _ _ _ _ hres]
  · exfalso
    have hd := cdLoop_ok_delta gl sqrtQ c df pv gridPhi _ _ _ _ _ hres i
      (Nat.zero_le i) (by omega) (by omega)
    rw [cdDelta, if_pos (by omega)] at hd
    linarith

/-- Witness for C8: the spec's example `gridPhi = [-10, -10, -5]`. -/
theorem C8_computeDensity_monotone_check_witness :
    computeDensity glTriv1 id 1 (fun _ => 0) id [-10, -10, -5] false = .error cdMsg :=
  C8_computeDensity_monotone_check glTriv1 id 1 (fun _ => 0) id [-10, -10, -5] false
    ⟨0, by norm_num, by with_unfolding_all decide⟩

/-- C9.  `computeDensity` also rejects every grid whose last element is
`≥ 0` (the final integration segment runs from `gridPhi.back()` to `0`),
with the same monotonicity error message; hence every accepted grid
consists entirely of strictly negative potential values. -/
theorem C9_computeDensity_negative_grid (gl : List (ℚ × ℚ)) (sqrtQ : ℚ → ℚ)
    (c : ℚ) (df pv : ℚ → ℚ) (gridPhi : List ℚ) (want : Bool) :
    (gridPhi ≠ [] → 0 ≤ gridPhi.getLast?.getD 0 →
      computeDensity gl sqrtQ c df pv gridPhi want = .error cdMsg) ∧
    (∀ out, computeDensity gl sqrtQ c df pv gridPhi want = .ok out →
      ∀ p ∈ gridPhi, p < 0) := by
  constructor
  · intro hne hge
    simp only [computeDensity]
    rcases hres : cdLoop gl sqrtQ c df pv gridPhi gridPhi.length 0
        (List.replicate gridPhi.length 0) (List.replicate gridPhi.length 0) with e | out
    · rw [cdLoop_error_msg gl sqrtQ c df pv gridPhi _ _ _ _ _ hres]
    · exfalso
      have hlen : 0 < gridPhi.length := List.length_pos.mpr hne
      have hd := cdLoop_ok_delta gl sqrtQ c df pv gridPhi _ _ _ _ _ hres
        (gridPhi.length - 1) (Nat.zero_le _) (by omega) (by omega)
      rw [cdDelta, if_neg (by omega)] at hd
      rw [getLastD_eq_getD gridPhi hne] at hge
      linarith
  · intro out hout p hp
    simp only [computeDensity] at hout
    rcases hres : cdLoop gl sqrtQ c df pv gridPhi gridPhi.length 0
        (List.replicate gridPhi.length 0) (List.replicate gridPhi.length 0) with e | o
    · rw [hres] at hout; exact Except.noConfusion hout
    · have hd : ∀ j, j < gridPhi.length → 0 < cdDelta gridPhi j := by
        intro j hj
        exact cdLoop_ok_delta gl sqrtQ c df pv gridPhi _ _ _ _ _ hres j
          (Nat.zero_le j) hj (by omega)
      obtain ⟨⟨j, hj⟩, rfl⟩ := List.mem_iff_get.mp hp
      have := cd_all_neg gridPhi hd j hj
      rwa [List.getD_eq_getElem _ _ hj] at this

/-- Witness for C9: the strictly increasing grid `[-10, -5, 3]` with a
non-negative last element is rejected; the accepted grid `[-1]` is
entirely negative. -/
theorem C9_computeDensity_negative_grid_witness :
    computeDensity glTriv1 id 1 (fun _ => 0) id [-10, -5, 3] false = .error cdMsg ∧
    (∀ p ∈ ([-1] : List ℚ), p < 0) :=
  ⟨(C9_computeDensity_negative_grid glTriv1 id 1 (fun _ => 0) id [-10, -5, 3] false).1
      (by simp) (by with_unfolding_all decide),
   (C9_computeDensity_negative_grid ([] : List (ℚ × ℚ)) id 1 (fun _ => 0) id [-1] false).2
      ([0], [0]) (by with_unfolding_all decide)⟩

/-- C10.  `SphericalIsotropicModelLocal` construction silently drops
trailing grid nodes with `f(h) ≤ MIN_VALUE_ROUNDOFF` (the surviving grid
is an initial segment of the caller's, possibly strictly smaller), and
raises "f(h) is nowhere positive" exactly when fewer than 3 points
survive. -/
theorem C10_localInit_trims (df : DF) (gridh : List ℚ) :
    (∃ k, k ≤ gridh.length ∧ trimGrid df gridh = gridh.take k ∧
      ∀ x ∈ gridh.drop k, df.value x ≤ MINV) ∧
    ((trimGrid df gridh).length < 3 →
      localInitGrid df gridh =
        .error "SphericalIsotropicModelLocal: f(h) is nowhere positive") ∧
    (3 ≤ (trimGrid df gridh).length →
      localInitGrid df gridh = .ok (trimGrid df gridh)) := by
  refine ⟨trimLoop_take df gridh.length gridh, ?_, ?_⟩
  · intro hlen
    simp only [localInitGrid]
    rw [if_pos hlen]
  · intro hlen
    simp only [localInitGrid]
    rw [if_neg (by omega)]

/-- Witness for C10: `[1, 2, 3, 4]` is trimmed to `[1, 2]` and rejected;
`[1/2, 1, 2, 3]` is trimmed to the strictly smaller `[1/2, 1, 2]` and
accepted. -/
theorem C10_localInit_trims_witness :
    ((trimGrid dfTrimEx [1, 2, 3, 4]).length < 3 ∧
      localInitGrid dfTrimEx [1, 2, 3, 4] =
        .error "SphericalIsotropicModelLocal: f(h) is nowhere positive") ∧
    (3 ≤ (trimGrid dfTrimEx [1/2, 1, 2, 3]).length ∧
      localInitGrid dfTrimEx [1/2, 1, 2, 3] = .ok (trimGrid dfTrimEx [1/2, 1, 2, 3]) ∧
      trimGrid dfTrimEx [1/2, 1, 2, 3] = [1/2, 1, 2]) :=
  ⟨⟨by with_unfolding_all decide,
    (C10_localInit_trims dfTrimEx [1, 2, 3, 4]).2.1 (by with_unfolding_all decide)⟩,
   ⟨by with_unfolding_all decide,
    (C10_localInit_trims dfTrimEx [1/2, 1, 2, 3]).2.2 (by with_unfolding_all decide),
    by with_unfolding_all decide⟩⟩

/-- C6.  Every row of the 2D tables stores exactly `log(2/3)` and
`log(2/5)` at `Y = 0` (the `Phi = E` limit), so evaluating the `J1`/`J3`
spline surfaces at their Y-minimum reproduces the constants `2/3` and
`2/5` for every `X` in the grid range (`expQ`/`logQ` model the exact
`std::exp`/`std::log` round-trip on positive arguments). -/
theorem C6_J_boundary_values (logQ expQ : ℚ → ℚ) (Jacc : ℕ → ℕ → ℚ × ℚ × ℚ)
    (dv : ℕ → ℕ → ℚ) (s1 s3 : Spline2D) (xs ys : List ℚ)
    (hexplog : ∀ q : ℚ, 0 < q → expQ (logQ q) = q)
    (hs1 : Spline2DSpec s1 xs ys (fun i j => (gridJentry logQ (Jacc i) (dv i) j).1))
    (hs3 : Spline2DSpec s3 xs ys (fun i j => (gridJentry logQ (Jacc i) (dv i) j).2))
    (hys : 0 < ys.length) :
    (∀ i, (gridJentry logQ (Jacc i) (dv i) 0).1 = logQ (2/3) ∧
          (gridJentry logQ (Jacc i) (dv i) 0).2 = logQ (2/5)) ∧
    (∀ x, xs.getD 0 0 ≤ x → x ≤ xs.getLast?.getD 0 →
      expQ (s1.eval x s1.ymin) = 2/3 ∧ expQ (s3.eval x s3.ymin) = 2/5) := by
  constructor
  · intro i
    exact ⟨rfl, rfl⟩
  · intro x hx0 hx1
    constructor
    · rw [hs1.yminEq, hs1.constRow 0 (logQ (2/3)) hys (fun i _ => rfl) x hx0 hx1]
      exact hexplog (2/3) (by norm_num)
    · rw [hs3.yminEq, hs3.constRow 0 (logQ (2/5)) hys (fun i _ => rfl) x hx0 hx1]
      exact hexplog (2/5) (by norm_num)

theorem s1Ex_spec : Spline2DSpec s1Ex [0, 1] [0, 1]
    (fun i j => (gridJentry id ((fun (_ : ℕ) (_ : ℕ) => ((1:ℚ), (1:ℚ), (1:ℚ))) i)
      ((fun (_ : ℕ) (_ : ℕ) => (1:ℚ)) i) j).1) := by
  refine ⟨?_, ?_, rfl, rfl, rfl, rfl⟩
  · intro i j hi hj
    have hi2 : i < 2 := by simpa using hi
    have hj2 : j < 2 := by simpa using hj
    interval_cases i <;> interval_cases j <;> with_unfolding_all decide
  · intro j c hj hall x _ _
    have hj2 : j < 2 := by simpa using hj
    interval_cases j
    · rw [← hall 0 (by norm_num)]
      show (if (([0, 1] : List ℚ).getD 0 0) < 1 then (2:ℚ)/3 else 1) = _
      with_unfolding_all decide
    · rw [← hall 0 (by norm_num)]
      show (if (([0, 1] : List ℚ).getD 1 0) < 1 then (2:ℚ)/3 else 1) = _
      with_unfolding_all decide

theorem s3Ex_spec : Spline2DSpec s3Ex [0, 1] [0, 1]
    (fun i j => (gridJentry id ((fun (_ : ℕ) (_ : ℕ) => ((1:ℚ), (1:ℚ), (1:ℚ))) i)
      ((fun (_ : ℕ) (_ : ℕ) => (1:ℚ)) i) j).2) := by
  refine ⟨?_, ?_, rfl, rfl, rfl, rfl⟩
  · intro i j hi hj
    have hi2 : i < 2 := by simpa using hi
    have hj2 : j < 2 := by simpa using hj
    interval_cases i <;> interval_cases j <;> with_unfolding_all decide
  · intro j c hj hall x _ _
    have hj2 : j < 2 := by simpa using hj
    interval_cases j
    · rw [← hall 0 (by norm_num)]
      show (if (([0, 1] : List ℚ).getD 0 0) < 1 then (2:ℚ)/5 else 1) = _
      with_unfolding_all decide
    · rw [← hall 0 (by norm_num)]
      show (if (([0, 1] : List ℚ).getD 1 0) < 1 then (2:ℚ)/5 else 1) = _
      with_unfolding_all decide

/-- Witness for C6 on a concrete 2×2 grid with identity `log`/`exp`. -/
theorem C6_J_boundary_values_witness :
    (∀ i, (gridJentry id ((fun (_ : ℕ) (_ : ℕ) => ((1:ℚ), (1:ℚ), (1:ℚ))) i)
        ((fun (_ : ℕ) (_ : ℕ) => (1:ℚ)) i) 0).1 = id ((2:ℚ)/3) ∧
      (gridJentry id ((fun (_ : ℕ) (_ : ℕ) => ((1:ℚ), (1:ℚ), (1:ℚ))) i)
        ((fun (_ : ℕ) (_ : ℕ) => (1:ℚ)) i) 0).2 = id ((2:ℚ)/5)) ∧
    (∀ x, ([0, 1] : List ℚ).getD 0 0 ≤ x → x ≤ ([0, 1] : List ℚ).getLast?.getD 0 →
      id (s1Ex.eval x s1Ex.ymin) = (2:ℚ)/3 ∧ id (s3Ex.eval x s3Ex.ymin) = (2:ℚ)/5) :=
  C6_J_boundary_values id id (fun _ _ => (1, 1, 1)) (fun _ _ => 1) s1Ex s3Ex
    [0, 1] [0, 1] (fun _ _ => rfl) s1Ex_spec s3Ex_spec (by norm_num)

/-- C2.  For every successfully constructed model (realizing its computed
data through the external spline contract) and every `h1 < h2` (including
`h2 = +INFINITY`), `cumulMass h1 ≤ cumulMass h2 ≤ totalMass`.  The
external-primitive hypotheses are: non-negative GL weights, positive
`exp`, an ascending log-grid, and positive grid values. -/
theorem C2_cumulMass_monotone (logQ expQ : ℚ → ℚ) (gl1 gl2 : List (ℚ × ℚ)) (df : DF)
    (pv : PhaseVolume) (gridh : List ℚ) (d : ModelData) (m : SphericalIsotropicModel)
    (hok : mkModelData logQ expQ gl1 gl2 df pv gridh = .ok d)
    (hreal : Realizes m pv d)
    (hw1 : ∀ p ∈ gl1, 0 ≤ p.2) (hw2 : ∀ p ∈ gl2, 0 ≤ p.2)
    (hexp : ∀ x : ℚ, 0 < expQ x)
    (hlog : (gridh.map logQ).Chain' (· < ·))
    (hpos : ∀ x ∈ gridh, 0 < x) :
    ∀ h1 h2 : WithTop ℚ, h1 < h2 →
      m.cumulMass h1 ≤ m.cumulMass h2 ∧ m.cumulMass h2 ≤ m.totalMass := by
  obtain ⟨hgH, hn2, hlen, hchain, hmass, hmpos, hht, hdernn, hderlast⟩ :=
    mk_ok_FGint_facts hok hw1 hw2 hexp hlog hpos
  have hmono : Monotone m.intfg.eval :=
    hreal.intfgSpec.mono hchain (fun x hx => hdernn x hx)
  have hconst : ∀ x, d.gridH.getLast?.getD 0 ≤ x →
      m.intfg.eval x = d.gridFGint.getLast?.getD 0 :=
    hreal.intfgSpec.constBeyond hderlast
  have hbound : ∀ x : ℚ, m.intfg.eval x ≤ m.totalMass := by
    intro x
    rw [hreal.massEq, hmass]
    rcases le_total x (d.gridH.getLast?.getD 0) with hx | hx
    · calc m.intfg.eval x ≤ m.intfg.eval (d.gridH.getLast?.getD 0) := hmono hx
        _ = d.gridFGint.getLast?.getD 0 := hconst _ (le_refl _)
    · rw [hconst x hx]
  intro h1 h2 hlt
  cases h2 with
  | top =>
      cases h1 with
      | top => exact absurd hlt (lt_irrefl _)
      | coe x1 =>
          refine ⟨?_, le_refl _⟩
          show m.intfg.eval x1 ≤ m.totalMass
          exact hbound x1
  | coe x2 =>
      cases h1 with
      | top => exact absurd hlt (by exact not_top_lt)
      | coe x1 =>
          have hx : x1 < x2 := by exact_mod_cast hlt
          exact ⟨hmono (le_of_lt hx), hbound x2⟩

theorem expQEx_pos : ∀ x : ℚ, 0 < expQEx x := by
  intro x
  simp only [expQEx]
  split
  · norm_num
  · split <;> norm_num

/-- Witness for C2: the concrete constructed model `mEx`/`dEx` and the
pair `h1 = 1 < h2 = +INFINITY`. -/
theorem C2_cumulMass_monotone_witness :
    mkModelData logQEx expQEx glTriv1 glTriv2 dfStepEx pvEx [1/4, 1, 4] = .ok dEx ∧
    mEx.cumulMass ((1 : ℚ) : WithTop ℚ) ≤ mEx.cumulMass ⊤ ∧
    mEx.cumulMass ⊤ ≤ mEx.totalMass :=
  ⟨by with_unfolding_all decide,
   C2_cumulMass_monotone logQEx expQEx glTriv1 glTriv2 dfStepEx pvEx [1/4, 1, 4] dEx mEx
     (by with_unfolding_all decide) mEx_realizes
     (by with_unfolding_all decide) (by with_unfolding_all decide)
     expQEx_pos (by norm_num [logQEx, List.chain'_cons]) (by norm_num)
     ((1 : ℚ) : WithTop ℚ) ⊤ (WithTop.coe_lt_top 1)⟩

theorem takeWhile_sorted_iff (l : List ℚ) (c : ℚ) (hchain : l.Chain' (· ≤ ·)) :
    ∀ j, j < l.length →
      (l.getD j 0 < c ↔ j < (l.takeWhile (fun v => decide (v < c))).length) := by
  induction l with
  | nil => intro j hj; simp at hj
  | cons a t ih =>
      intro j hj
      by_cases ha : a < c
      · rw [List.takeWhile_cons_of_pos (by simpa using ha)]
        cases j with
        | zero => simp [ha]
        | succ j =>
            simp only [List.getD_cons_succ, List.length_cons]
            rw [ih (List.Chain'.tail hchain) j (by simpa using hj)]
            omega
      · rw [List.takeWhile_cons_of_neg (by simpa using ha)]
        simp only [List.length_nil]
        constructor
        · intro hlt
          exfalso
          cases j with
          | zero =>
              simp only [List.getD_cons_zero] at hlt
              exact ha hlt
          | succ j =>
              simp only [List.getD_cons_succ] at hlt
              have hale : ∀ b ∈ t, a ≤ b :=
                (List.pairwise_cons.mp (List.chain'_iff_pairwise.mp hchain)).1
              have hj' : j < t.length := by simpa using hj
              have hmem : t.getD j 0 ∈ t := by
                rw [List.getD_eq_getElem _ _ hj']
                exact List.getElem_mem hj'
              exact ha (lt_of_le_of_lt (hale _ hmem) hlt)
        · omega

theorem htransLoop_eq (gridH l : List ℚ) (c : ℚ) (T S : ℕ)
    (hchain : l.Chain' (· ≤ ·)) (hlen : gridH.length = l.length)
    (hn : 2 ≤ l.length)
    (hT : T = (l.takeWhile (fun v => decide (v < c))).length)
    (hS : S = min (T - 2) (gridH.length - 2)) :
    ∀ fuel i, 1 ≤ i → i ≤ S + 1 → S + 2 ≤ fuel + i →
      htransLoop gridH l c fuel i (gridH.getD (i - 1) 0) = gridH.getD S 0 := by
  intro fuel
  induction fuel with
  | zero =>
      intro i h1 h2 h3
      omega
  | succ fuel ih =>
      intro i h1 h2 h3
      rw [htransLoop]
      by_cases hcond : i < gridH.length - 1 ∧ l.getD (i + 1) 0 < c
      · rw [if_pos hcond]
        have hi1 : i + 1 < l.length := by omega
        have hiT := (takeWhile_sorted_iff l c hchain (i + 1) hi1).mp hcond.2
        rw [← hT] at hiT
        have heq : i = i + 1 - 1 := by omega
        rw [show gridH.getD i 0 = gridH.getD (i + 1 - 1) 0 from by rw [← heq]]
        exact ih (i + 1) (by omega) (by omega) (by omega)
      · rw [if_neg hcond]
        have hiS1 : i = S + 1 := by
          rcases Nat.lt_or_ge i (S + 1) with hlt | hge
          · exfalso
            apply hcond
            refine ⟨by omega, ?_⟩
            have hi1 : i + 1 < l.length := by omega
            refine (takeWhile_sorted_iff l c hchain (i + 1) hi1).mpr ?_
            rw [← hT]
            omega
          · omega
        rw [hiS1, Nat.add_sub_cancel]

/-- C3, amended.  After construction, `htransition` is the grid value one
index below the largest tabulated `gridFGint` entry still under
`0.999 * totalMass` (equivalently `gridH[min(T-2, n-2)]` where `T` counts
the leading entries below the threshold), not the largest grid value
itself: the loop of lines 392-394 tests `gridFGint[i+1]` while storing
`gridH[i]`. -/
theorem C3_htransition_amended (logQ expQ : ℚ → ℚ) (gl1 gl2 : List (ℚ × ℚ)) (df : DF)
    (pv : PhaseVolume) (gridh : List ℚ) (d : ModelData)
    (hok : mkModelData logQ expQ gl1 gl2 df pv gridh = .ok d)
    (hw1 : ∀ p ∈ gl1, 0 ≤ p.2) (hw2 : ∀ p ∈ gl2, 0 ≤ p.2)
    (hexp : ∀ x : ℚ, 0 < expQ x)
    (hlog : (gridh.map logQ).Chain' (· < ·))
    (hpos : ∀ x ∈ gridh, 0 < x) :
    d.htransition = d.gridH.getD
      (min ((d.gridFGint.takeWhile
          (fun v => decide (v < d.totalMass * (999/1000)))).length - 2)
        (d.gridH.length - 2)) 0 := by
  obtain ⟨hgH, hn2, hlen, hchain, hmass, hmpos, hht, _, _⟩ :=
    mk_ok_FGint_facts hok hw1 hw2 hexp hlog hpos
  rw [hht, htransitionOf]
  have hlen' : d.gridH.length = d.gridFGint.length := by
    rw [hgH, hlen]
  have hn' : 2 ≤ d.gridFGint.length := by
    rw [hlen, ← hgH]
    rw [hgH]
    exact hn2
  have happ := htransLoop_eq d.gridH d.gridFGint (d.totalMass * (999/1000)) _ _
    hchain hlen' hn' rfl rfl d.gridH.length 1 (le_refl 1) (by omega)
    (by
      have hS : min ((d.gridFGint.takeWhile
          (fun v => decide (v < d.totalMass * (999/1000)))).length - 2)
        (d.gridH.length - 2) ≤ d.gridH.length - 2 := min_le_right _ _
      omega)
  exact happ

/-- Witness for the amended C3 on the concrete 4-point construction. -/
theorem C3_htransition_amended_witness :
    dC3.htransition = dC3.gridH.getD
      (min ((dC3.gridFGint.takeWhile
          (fun v => decide (v < dC3.totalMass * (999/1000)))).length - 2)
        (dC3.gridH.length - 2)) 0 :=
  C3_htransition_amended logQEx expQEx glTriv1 glTriv2 dfStep8Ex pvEx
    [1/4, 1, 4, 16] dC3
    (by set_option maxRecDepth 4000 in with_unfolding_all decide)
    (by with_unfolding_all decide) (by with_unfolding_all decide)
    expQEx_pos (by norm_num [logQEx, List.chain'_cons]) (by norm_num)

/-- Counterexample to C3 as stated: on the concretely constructed 4-point
model, `htransition = 1` while the largest grid value `h_i` with
`FGint(h_i) < 0.999 * totalMass` is `4`. -/
theorem C3_counterexample :
    mkModelData logQEx expQEx glTriv1 glTriv2 dfStep8Ex pvEx [1/4, 1, 4, 16] =
      .ok dC3 ∧
    dC3.htransition = 1 ∧
    claimedHtransition dC3.gridH dC3.gridFGint dC3.totalMass = some 4 ∧
    (1 : ℚ) ≠ 4 := by
  refine ⟨?_, ?_, ?_, ?_⟩
  · set_option maxRecDepth 4000 in with_unfolding_all decide
  · with_unfolding_all decide
  · with_unfolding_all decide
  · with_unfolding_all decide

end GalaxyModel
